import Mathlib

/-!
Verification development for the tartan_forklift data pipeline.

The development shallowly embeds the three collaborating subsystems of the
repository:

* the recording-completion tracker
  (scripts/data_manager/new_rosbags_watchdog.py together with
  scripts/data_manager/rosbag_metadata_parser.py),
* the compression pipeline (upload_rosbags/modules/compression_manager.py),
* the transfer logic (upload_rosbags/upload_rosbags.py,
  upload_rosbags/modules/ssh_client.py and upload_vehicle_data.py).

Pure functions of the source become Lean functions; the stateful watchdog
becomes explicit state passing; the threaded compression pipeline becomes a
labelled transition relation over an explicit scheduler; calls to external
binaries (yaml parser, mcap CLI, rsync, lftp, ssh, rm) are modelled by
explicit outcome records that the embedded code consumes, exactly at the
points where the Python code consumes their exit codes and outputs.
-/

/-! ## Shared helpers -/

/-- Python's substring containment test on strings, as in the expression
written in Python as: needle in haystack. -/
def pyIn (needle haystack : String) : Bool :=
  haystack.data.tails.any (fun t => needle.data.isPrefixOf t)

/-- A filesystem path, modelled as the pair of its parent directory and its
final name component.  The watchdog only ever takes parents of event paths
and compares full paths for equality, so this pair representation is the
part of pathlib.Path the code consumes. -/
structure FsPath where
  dir : String
  name : String
deriving DecidableEq, Repr

/-! ## Recording-completion tracker
(scripts/data_manager/new_rosbags_watchdog.py) -/

/-- Mirrors the dataclass RosbagRecordingMeta of new_rosbags_watchdog.py.
The Python defaults are None; the rosbag-first creation site passes
absolute_path=None and expected_rosbags=None, hence the Option types.
received_rosbags is set to a concrete list at every creation site. -/
structure RosbagRecordingMeta where
  absolute_path : Option String
  expected_rosbags : Option (List FsPath)
  received_rosbags : List FsPath
deriving DecidableEq, Repr

/-- State of a NewRosbagsWatchdog instance: the rosbags_directories dict
(keyed by the directory path string) and the rosbag_recording_queue
(a FIFO, represented with its head as the oldest element). -/
structure WatchdogState where
  rosbags_directories : String → Option RosbagRecordingMeta
  rosbag_recording_queue : List String

/-- The state right after NewRosbagsWatchdog.__init__: empty dict, empty
queue. -/
def initialWatchdogState : WatchdogState :=
  { rosbags_directories := fun _ => none, rosbag_recording_queue := [] }

/-- Store (or drop, with none) the entry of one directory key in the
rosbags_directories dict. -/
def setDir (st : WatchdogState) (k : String) (v : Option RosbagRecordingMeta) :
    WatchdogState :=
  { st with rosbags_directories := fun k' => if k' = k then v else st.rosbags_directories k' }

/-- Python set equality of two lists, as in
set(expected_rosbags) == set(received_rosbags) inside
NewRosbagsWatchdog._all_rosbags_received. -/
def listSetEq (xs ys : List FsPath) : Bool :=
  xs.all (fun x => ys.contains x) && ys.all (fun y => xs.contains y)

/-- Error raised by RosbagMetadataParser.get_expected_rosbag_files when the
metadata.yaml document is malformed or unparsable (yaml.safe_load failing,
or the missing-key lookups raising AttributeError).  The parse itself is an
external collaborator; the watchdog consumes only its outcome. -/
inductive YamlError where
  | malformed
deriving DecidableEq, Repr

/-- NewRosbagsWatchdog._handle_metadata_file.  The first argument of the
event is the parent directory of the metadata.yaml path; the parse argument
is the outcome of self.meta_parser.get_expected_rosbag_files on the file
(the Python call has no try/except around it, so a parse error propagates
out of the handler, modelled by the error branch). -/
def handle_metadata_file (st : WatchdogState) (rosbag_directory : String)
    (parse : Except YamlError (List FsPath)) : Except YamlError WatchdogState :=
  match parse with
  | .error e => .error e
  | .ok expected_rosbags =>
    match st.rosbags_directories rosbag_directory with
    | none =>
        -- First time seeing this directory, no files yet
        .ok (setDir st rosbag_directory
          (some { absolute_path := some rosbag_directory
                , expected_rosbags := some expected_rosbags
                , received_rosbags := [] }))
    | some meta =>
        -- Only expected_rosbags is overwritten; absolute_path is NOT set here.
        .ok (setDir st rosbag_directory
          (some { meta with expected_rosbags := some expected_rosbags }))

/-- NewRosbagsWatchdog._handle_rosbag_file.  The received list is appended
first (the Python code mutates meta.received_rosbags in place), then the
absolute_path None check short-circuits, then the completion check runs.
The branch where absolute_path is set while expected_rosbags is None is
unreachable from the initial state (lemma watchdog_path_implies_expected);
in Python it would raise TypeError inside set(None), and it is modelled
here as a plain update without publication. -/
def handle_rosbag_file (st : WatchdogState) (rosbag_file : FsPath) : WatchdogState :=
  let rosbag_directory := rosbag_file.dir
  match st.rosbags_directories rosbag_directory with
  | none =>
      -- First time seeing this directory, no metadata yet
      setDir st rosbag_directory
        (some { absolute_path := none
              , expected_rosbags := none
              , received_rosbags := [rosbag_file] })
  | some meta =>
      let meta' := { meta with received_rosbags := meta.received_rosbags ++ [rosbag_file] }
      if meta'.absolute_path.isNone then
        -- Metadata hasn't been received yet (so the Python comment says)
        setDir st rosbag_directory (some meta')
      else
        match meta'.expected_rosbags with
        | some expected =>
            if listSetEq expected meta'.received_rosbags then
              { setDir st rosbag_directory none with
                  rosbag_recording_queue := st.rosbag_recording_queue ++ [rosbag_directory] }
            else
              setDir st rosbag_directory (some meta')
        | none => setDir st rosbag_directory (some meta')

/-- A file-closed event as NewRosbagsWatchdog.on_closed classifies it: a
metadata.yaml close (carrying the parent directory and the outcome of the
metadata parse) or an .mcap close (carrying the full path).  Paths matching
neither suffix are ignored by on_closed and are not modelled. -/
inductive WatchEvent where
  | metadata (dir : String) (parse : Except YamlError (List FsPath))
  | rosbag (file : FsPath)

/-- NewRosbagsWatchdog.on_closed for a single event. -/
def on_closed (st : WatchdogState) (event : WatchEvent) : Except YamlError WatchdogState :=
  match event with
  | .metadata dir parse => handle_metadata_file st dir parse
  | .rosbag file => .ok (handle_rosbag_file st file)

/-- Deliver a sequence of file-closed events to the watchdog.  An exception
escaping on_closed propagates into the watchdog observer thread and stops
event processing, so processing halts at the first error, returning the
state reached so far. -/
def processEvents (st : WatchdogState) : List WatchEvent → WatchdogState
  | [] => st
  | e :: rest =>
    match on_closed st e with
    | .error _ => st
    | .ok st' => processEvents st' rest

/-! ### Basic lemmas about the watchdog state operations -/

theorem setDir_lookup_self (st : WatchdogState) (k : String)
    (v : Option RosbagRecordingMeta) : (setDir st k v).rosbags_directories k = v := by
  simp [setDir]

theorem setDir_lookup_other (st : WatchdogState) (k k' : String)
    (v : Option RosbagRecordingMeta) (h : k' ≠ k) :
    (setDir st k v).rosbags_directories k' = st.rosbags_directories k' := by
  simp [setDir, h]

theorem setDir_queue (st : WatchdogState) (k : String)
    (v : Option RosbagRecordingMeta) :
    (setDir st k v).rosbag_recording_queue = st.rosbag_recording_queue := rfl

theorem setDir_self (st : WatchdogState) (k : String)
    (h : st.rosbags_directories k = v) : setDir st k v = st := by
  cases st with
  | mk dirs q =>
      simp only [setDir]
      congr 1
      funext k'
      by_cases hk : k' = k
      · subst hk; simpa using h.symm
      · simp [hk]

/-- Two lists seen as sets: same membership. -/
def SameSet (xs ys : List FsPath) : Prop := ∀ a, a ∈ xs ↔ a ∈ ys

theorem SameSet.refl (xs : List FsPath) : SameSet xs xs := fun _ => Iff.rfl

theorem SameSet.append {xs ys : List FsPath} (h : SameSet xs ys)
    (l : List FsPath) : SameSet (xs ++ l) (ys ++ l) := by
  intro a
  simp [List.mem_append, h a]

theorem listSetEq_iff {xs ys : List FsPath} :
    listSetEq xs ys = true ↔ ((∀ x ∈ xs, x ∈ ys) ∧ (∀ y ∈ ys, y ∈ xs)) := by
  simp [listSetEq, List.all_eq_true, List.elem_iff]

theorem listSetEq_congr (e : List FsPath) {r1 r2 : List FsPath}
    (h : SameSet r1 r2) : listSetEq e r1 = listSetEq e r2 := by
  rcases h1 : listSetEq e r1 with _ | _ <;> rcases h2 : listSetEq e r2 with _ | _
  · rfl
  · exfalso
    rw [listSetEq_iff] at h2
    have : listSetEq e r1 = true := by
      rw [listSetEq_iff]
      exact ⟨fun x hx => (h x).mpr (h2.1 x hx), fun y hy => h2.2 y ((h y).mp hy)⟩
    rw [h1] at this; exact Bool.false_ne_true this
  · exfalso
    rw [listSetEq_iff] at h1
    have : listSetEq e r2 = true := by
      rw [listSetEq_iff]
      exact ⟨fun x hx => (h x).mp (h1.1 x hx), fun y hy => h1.2 y ((h y).mpr hy)⟩
    rw [h2] at this; exact Bool.false_ne_true this
  · rfl

/-- Invariant of the watchdog dict: an entry whose absolute_path is set was
created by _handle_metadata_file, which always also sets expected_rosbags.
This justifies treating the expected-is-None branch of handle_rosbag_file
as unreachable. -/
def GoodW (σ : WatchdogState) : Prop :=
  ∀ d m, σ.rosbags_directories d = some m →
    m.absolute_path.isSome → m.expected_rosbags.isSome

theorem goodW_initial : GoodW initialWatchdogState := by
  intro d m h
  simp [initialWatchdogState] at h

theorem goodW_on_closed {σ σ' : WatchdogState} (hg : GoodW σ) {e : WatchEvent}
    (h : on_closed σ e = .ok σ') : GoodW σ' := by
  cases e with
  | metadata dir parse =>
    cases parse with
    | error er => simp [on_closed, handle_metadata_file] at h
    | ok exp =>
      intro d m hm hp
      simp only [on_closed, handle_metadata_file] at h
      cases hd : σ.rosbags_directories dir with
      | none =>
        rw [hd] at h
        cases h
        by_cases hdd : d = dir
        · subst hdd
          rw [setDir_lookup_self] at hm
          cases hm
          simp
        · rw [setDir_lookup_other _ _ _ _ hdd] at hm
          exact hg d m hm hp
      | some meta =>
        rw [hd] at h
        cases h
        by_cases hdd : d = dir
        · subst hdd
          rw [setDir_lookup_self] at hm
          cases hm
          simp
        · rw [setDir_lookup_other _ _ _ _ hdd] at hm
          exact hg d m hm hp
  | rosbag f =>
    intro d m hm hp
    simp only [on_closed] at h
    cases h
    simp only [handle_rosbag_file] at hm
    cases hd : σ.rosbags_directories f.dir with
    | none =>
      rw [hd] at hm
      by_cases hdd : d = f.dir
      · subst hdd
        rw [setDir_lookup_self] at hm
        cases hm
        simp at hp
      · rw [setDir_lookup_other _ _ _ _ hdd] at hm
        exact hg d m hm hp
    | some meta =>
      rw [hd] at hm
      simp only at hm
      by_cases hpath : meta.absolute_path.isNone
      · rw [if_pos hpath] at hm
        by_cases hdd : d = f.dir
        · subst hdd
          rw [setDir_lookup_self] at hm
          cases hm
          simp only [Option.isNone_iff_eq_none] at hpath
          simp [hpath] at hp
        · rw [setDir_lookup_other _ _ _ _ hdd] at hm
          exact hg d m hm hp
      · rw [if_neg hpath] at hm
        have hexp := hg f.dir meta hd (by
          rcases hme : meta.absolute_path with _ | p
          · rw [hme] at hpath; simp at hpath
          · simp)
        rcases hmex : meta.expected_rosbags with _ | exp
        · rw [hmex] at hexp; simp at hexp
        · rw [hmex] at hm
          simp only at hm
          by_cases hset : listSetEq exp (meta.received_rosbags ++ [f]) = true
        --
          · rw [if_pos hset] at hm
            by_cases hdd : d = f.dir
            · subst hdd
              have : (setDir σ f.dir none).rosbags_directories f.dir = none :=
                setDir_lookup_self ..
              simp only [this] at hm
              cases hm
            · have : (setDir σ f.dir none).rosbags_directories d =
                  σ.rosbags_directories d := setDir_lookup_other _ _ _ _ hdd
              simp only [this] at hm
              exact hg d m hm hp
          · rw [if_neg hset] at hm
            by_cases hdd : d = f.dir
            · subst hdd
              rw [setDir_lookup_self] at hm
              cases hm
              simp only [hmex]
              simp
            · rw [setDir_lookup_other _ _ _ _ hdd] at hm
              exact hg d m hm hp

theorem goodW_processEvents {σ : WatchdogState} (hg : GoodW σ)
    (evs : List WatchEvent) : GoodW (processEvents σ evs) := by
  induction evs generalizing σ with
  | nil => exact hg
  | cons e rest ih =>
    simp only [processEvents]
    cases h : on_closed σ e with
    | error er => exact hg
    | ok σ' => exact ih (goodW_on_closed hg h)

/-- The absolute_path-set-implies-expected-set invariant holds in every
state the watchdog can reach from its initial state. -/
theorem watchdog_path_implies_expected (evs : List WatchEvent) :
    GoodW (processEvents initialWatchdogState evs) :=
  goodW_processEvents goodW_initial evs

/-- C1: the claim asserts that for every arrival permutation of the manifest
and data-file events, the directory is published exactly once, on the event
that first makes the expected and received sets equal, in particular when
the manifest arrives after some or all data files.  The code never publishes
in that situation: the input below is the spec's own end-to-end scenario
(events b.mcap, a.mcap, manifest listing a,b,c, then c.mcap), where the
claim requires exactly one publication immediately after c.mcap, yet the
completion queue stays empty: the data-file-first entry is created with
absolute_path None, _handle_metadata_file's update branch never sets
absolute_path, and _handle_rosbag_file returns before its completion check
whenever absolute_path is None (and _handle_metadata_file performs no
completion check at all). -/
theorem c1_manifest_after_data_never_completes :
    (processEvents initialWatchdogState
      [ .rosbag ⟨"rec", "b.mcap"⟩
      , .rosbag ⟨"rec", "a.mcap"⟩
      , .metadata "rec" (.ok [⟨"rec", "a.mcap"⟩, ⟨"rec", "b.mcap"⟩, ⟨"rec", "c.mcap"⟩])
      , .rosbag ⟨"rec", "c.mcap"⟩ ]).rosbag_recording_queue = [] := by
  rfl

/-- C8 counterexample: re-delivering an already-seen data-file event is not
a no-op on the tracked state: the duplicate is appended to the
received_rosbags list, so the entry after re-delivery differs from the entry
before it (a.mcap is tracked twice). -/
theorem c8_counterexample_duplicate_mutates_state :
    ((processEvents initialWatchdogState
      [ .metadata "rec" (.ok [⟨"rec", "a.mcap"⟩, ⟨"rec", "b.mcap"⟩])
      , .rosbag ⟨"rec", "a.mcap"⟩
      , .rosbag ⟨"rec", "a.mcap"⟩ ]).rosbags_directories "rec").map
        (fun m => m.received_rosbags)
    = some [⟨"rec", "a.mcap"⟩, ⟨"rec", "a.mcap"⟩] ∧
    ((processEvents initialWatchdogState
      [ .metadata "rec" (.ok [⟨"rec", "a.mcap"⟩, ⟨"rec", "b.mcap"⟩])
      , .rosbag ⟨"rec", "a.mcap"⟩ ]).rosbags_directories "rec").map
        (fun m => m.received_rosbags)
    = some [⟨"rec", "a.mcap"⟩] := by
  exact ⟨rfl, rfl⟩

/-! ### Shape lemmas for handle_rosbag_file -/

theorem handle_rosbag_shape_new {st : WatchdogState} {f : FsPath}
    (h : st.rosbags_directories f.dir = none) :
    handle_rosbag_file st f =
      setDir st f.dir (some { absolute_path := none
                            , expected_rosbags := none
                            , received_rosbags := [f] }) := by
  simp [handle_rosbag_file, h]

theorem handle_rosbag_shape_nopath {st : WatchdogState} {f : FsPath}
    {meta : RosbagRecordingMeta}
    (h : st.rosbags_directories f.dir = some meta)
    (hp : meta.absolute_path = none) :
    handle_rosbag_file st f =
      setDir st f.dir
        (some { meta with received_rosbags := meta.received_rosbags ++ [f] }) := by
  simp [handle_rosbag_file, h, hp]

theorem handle_rosbag_shape_noexp {st : WatchdogState} {f : FsPath}
    {meta : RosbagRecordingMeta} {p : String}
    (h : st.rosbags_directories f.dir = some meta)
    (hp : meta.absolute_path = some p)
    (he : meta.expected_rosbags = none) :
    handle_rosbag_file st f =
      setDir st f.dir
        (some { meta with received_rosbags := meta.received_rosbags ++ [f] }) := by
  simp [handle_rosbag_file, h, hp, he]

theorem handle_rosbag_shape_publish {st : WatchdogState} {f : FsPath}
    {meta : RosbagRecordingMeta} {p : String} {expected : List FsPath}
    (h : st.rosbags_directories f.dir = some meta)
    (hp : meta.absolute_path = some p)
    (he : meta.expected_rosbags = some expected)
    (hs : listSetEq expected (meta.received_rosbags ++ [f]) = true) :
    handle_rosbag_file st f =
      { setDir st f.dir none with
          rosbag_recording_queue := st.rosbag_recording_queue ++ [f.dir] } := by
  simp [handle_rosbag_file, h, hp, he, hs]

theorem handle_rosbag_shape_nopublish {st : WatchdogState} {f : FsPath}
    {meta : RosbagRecordingMeta} {p : String} {expected : List FsPath}
    (h : st.rosbags_directories f.dir = some meta)
    (hp : meta.absolute_path = some p)
    (he : meta.expected_rosbags = some expected)
    (hs : listSetEq expected (meta.received_rosbags ++ [f]) = false) :
    handle_rosbag_file st f =
      setDir st f.dir
        (some { meta with received_rosbags := meta.received_rosbags ++ [f] }) := by
  simp [handle_rosbag_file, h, hp, he, hs]

/-! ### Duplicate-delivery simulation

To settle how a duplicated event changes the watchdog's future behaviour we
relate the run that saw the duplicate (second component) to the run that did
not (first component).  Per directory entry, the duplicated run either
agrees exactly, or holds a dead entry (absolute_path None: such an entry can
never publish and its absolute_path never becomes set again), or holds an
entry that agrees up to set-equality of the received list. -/

inductive DirRel : Option RosbagRecordingMeta → Option RosbagRecordingMeta → Prop where
  | same (o : Option RosbagRecordingMeta) : DirRel o o
  | dead (o : Option RosbagRecordingMeta) (m : RosbagRecordingMeta)
      (h : m.absolute_path = none) : DirRel o (some m)
  | setSame (mo md : RosbagRecordingMeta)
      (hpath : md.absolute_path = mo.absolute_path)
      (hexp : md.expected_rosbags = mo.expected_rosbags)
      (hrec : SameSet mo.received_rosbags md.received_rosbags) :
      DirRel (some mo) (some md)

/-- Simulation relation between the original run's state and the duplicated
run's state: directory entries are related pointwise and the duplicated run
has published every directory at most as often as the original run. -/
def StRel (σo σd : WatchdogState) : Prop :=
  (∀ k, DirRel (σo.rosbags_directories k) (σd.rosbags_directories k)) ∧
  (∀ d, σd.rosbag_recording_queue.count d ≤ σo.rosbag_recording_queue.count d)

theorem handle_metadata_shape_new {st : WatchdogState} {dir : String}
    {exp : List FsPath} (h : st.rosbags_directories dir = none) :
    handle_metadata_file st dir (.ok exp) =
      .ok (setDir st dir (some { absolute_path := some dir
                               , expected_rosbags := some exp
                               , received_rosbags := [] })) := by
  simp [handle_metadata_file, h]

theorem handle_metadata_shape_update {st : WatchdogState} {dir : String}
    {exp : List FsPath} {meta : RosbagRecordingMeta}
    (h : st.rosbags_directories dir = some meta) :
    handle_metadata_file st dir (.ok exp) =
      .ok (setDir st dir (some { meta with expected_rosbags := some exp })) := by
  simp [handle_metadata_file, h]

theorem strel_setDir {σo σd : WatchdogState} (h : StRel σo σd) (dir : String)
    {vo vd : Option RosbagRecordingMeta} (hv : DirRel vo vd) :
    StRel (setDir σo dir vo) (setDir σd dir vd) := by
  constructor
  · intro k
    by_cases hk : k = dir
    · subst hk
      rw [setDir_lookup_self, setDir_lookup_self]
      exact hv
    · rw [setDir_lookup_other _ _ _ _ hk, setDir_lookup_other _ _ _ _ hk]
      exact h.1 k
  · intro d
    rw [setDir_queue, setDir_queue]
    exact h.2 d

theorem strel_pub_orig {σo σd : WatchdogState} (h : StRel σo σd) (dir : String)
    {vd : Option RosbagRecordingMeta} (hv : DirRel none vd) :
    StRel { setDir σo dir none with
              rosbag_recording_queue := σo.rosbag_recording_queue ++ [dir] }
          (setDir σd dir vd) := by
  constructor
  · intro k
    by_cases hk : k = dir
    · subst hk
      show DirRel ((setDir σo k none).rosbags_directories k) _
      rw [setDir_lookup_self, setDir_lookup_self]
      exact hv
    · show DirRel ((setDir σo dir none).rosbags_directories k) _
      rw [setDir_lookup_other _ _ _ _ hk, setDir_lookup_other _ _ _ _ hk]
      exact h.1 k
  · intro d
    show (setDir σd dir vd).rosbag_recording_queue.count d ≤
      (σo.rosbag_recording_queue ++ [dir]).count d
    rw [setDir_queue, List.count_append]
    exact Nat.le_add_right_of_le (h.2 d)

theorem strel_pub_both {σo σd : WatchdogState} (h : StRel σo σd) (dir : String) :
    StRel { setDir σo dir none with
              rosbag_recording_queue := σo.rosbag_recording_queue ++ [dir] }
          { setDir σd dir none with
              rosbag_recording_queue := σd.rosbag_recording_queue ++ [dir] } := by
  constructor
  · intro k
    by_cases hk : k = dir
    · subst hk
      show DirRel ((setDir σo k none).rosbags_directories k)
        ((setDir σd k none).rosbags_directories k)
      rw [setDir_lookup_self, setDir_lookup_self]
      exact DirRel.same none
    · show DirRel ((setDir σo dir none).rosbags_directories k)
        ((setDir σd dir none).rosbags_directories k)
      rw [setDir_lookup_other _ _ _ _ hk, setDir_lookup_other _ _ _ _ hk]
      exact h.1 k
  · intro d
    show (σd.rosbag_recording_queue ++ [dir]).count d ≤
      (σo.rosbag_recording_queue ++ [dir]).count d
    rw [List.count_append, List.count_append]
    exact Nat.add_le_add_right (h.2 d) _

theorem strel_metadata {σo σd : WatchdogState} (h : StRel σo σd) (dir : String)
    (exp : List FsPath) :
    ∃ σo' σd', handle_metadata_file σo dir (.ok exp) = .ok σo' ∧
      handle_metadata_file σd dir (.ok exp) = .ok σd' ∧ StRel σo' σd' := by
  have hrel := h.1 dir
  generalize eo : σo.rosbags_directories dir = xo at hrel
  generalize ed : σd.rosbags_directories dir = xd at hrel
  cases hrel with
  | same =>
    cases xo with
    | none =>
      exact ⟨_, _, handle_metadata_shape_new eo, handle_metadata_shape_new ed,
        strel_setDir h dir (DirRel.same _)⟩
    | some meta =>
      exact ⟨_, _, handle_metadata_shape_update eo, handle_metadata_shape_update ed,
        strel_setDir h dir (DirRel.same _)⟩
  | dead o m hm =>
    cases xo with
    | none =>
      exact ⟨_, _, handle_metadata_shape_new eo, handle_metadata_shape_update ed,
        strel_setDir h dir (DirRel.dead _ _ hm)⟩
    | some mo =>
      exact ⟨_, _, handle_metadata_shape_update eo, handle_metadata_shape_update ed,
        strel_setDir h dir (DirRel.dead _ _ hm)⟩
  | setSame mo md hpath2 hexp2 hrec =>
    exact ⟨_, _, handle_metadata_shape_update eo, handle_metadata_shape_update ed,
      strel_setDir h dir (DirRel.setSame _ _ hpath2 rfl hrec)⟩

theorem strel_rosbag {σo σd : WatchdogState} (h : StRel σo σd) (f : FsPath) :
    StRel (handle_rosbag_file σo f) (handle_rosbag_file σd f) := by
  have hrel := h.1 f.dir
  generalize eo : σo.rosbags_directories f.dir = xo at hrel
  generalize ed : σd.rosbags_directories f.dir = xd at hrel
  cases hrel with
  | same =>
    cases xo with
    | none =>
      rw [handle_rosbag_shape_new eo, handle_rosbag_shape_new ed]
      exact strel_setDir h f.dir (DirRel.same _)
    | some meta =>
      rcases hpath : meta.absolute_path with _ | p
      · rw [handle_rosbag_shape_nopath eo hpath, handle_rosbag_shape_nopath ed hpath]
        exact strel_setDir h f.dir (DirRel.same _)
      · rcases hexp : meta.expected_rosbags with _ | expected
        · rw [handle_rosbag_shape_noexp eo hpath hexp,
              handle_rosbag_shape_noexp ed hpath hexp]
          exact strel_setDir h f.dir (DirRel.same _)
        · cases hset : listSetEq expected (meta.received_rosbags ++ [f]) with
          | false =>
            rw [handle_rosbag_shape_nopublish eo hpath hexp hset,
                handle_rosbag_shape_nopublish ed hpath hexp hset]
            exact strel_setDir h f.dir (DirRel.same _)
          | true =>
            rw [handle_rosbag_shape_publish eo hpath hexp hset,
                handle_rosbag_shape_publish ed hpath hexp hset]
            exact strel_pub_both h f.dir
  | dead o m hm =>
    rw [handle_rosbag_shape_nopath ed hm]
    cases xo with
    | none =>
      rw [handle_rosbag_shape_new eo]
      exact strel_setDir h f.dir (DirRel.dead _ _ hm)
    | some mo =>
      rcases hpath : mo.absolute_path with _ | p
      · rw [handle_rosbag_shape_nopath eo hpath]
        exact strel_setDir h f.dir (DirRel.dead _ _ hm)
      · rcases hexp : mo.expected_rosbags with _ | expected
        · rw [handle_rosbag_shape_noexp eo hpath hexp]
          exact strel_setDir h f.dir (DirRel.dead _ _ hm)
        · cases hset : listSetEq expected (mo.received_rosbags ++ [f]) with
          | false =>
            rw [handle_rosbag_shape_nopublish eo hpath hexp hset]
            exact strel_setDir h f.dir (DirRel.dead _ _ hm)
          | true =>
            rw [handle_rosbag_shape_publish eo hpath hexp hset]
            exact strel_pub_orig h f.dir (DirRel.dead _ _ hm)
  | setSame mo md hpath2 hexp2 hrec =>
    rcases hpath : mo.absolute_path with _ | p
    · have hpd : md.absolute_path = none := by rw [hpath2, hpath]
      rw [handle_rosbag_shape_nopath eo hpath, handle_rosbag_shape_nopath ed hpd]
      exact strel_setDir h f.dir (DirRel.setSame _ _ hpath2 hexp2 (hrec.append [f]))
    · have hpd : md.absolute_path = some p := by rw [hpath2, hpath]
      rcases hexp : mo.expected_rosbags with _ | expected
      · have hed : md.expected_rosbags = none := by rw [hexp2, hexp]
        rw [handle_rosbag_shape_noexp eo hpath hexp,
            handle_rosbag_shape_noexp ed hpd hed]
        exact strel_setDir h f.dir (DirRel.setSame _ _ hpath2 hexp2 (hrec.append [f]))
      · have hed : md.expected_rosbags = some expected := by rw [hexp2, hexp]
        have hcong : listSetEq expected (md.received_rosbags ++ [f]) =
            listSetEq expected (mo.received_rosbags ++ [f]) :=
          (listSetEq_congr expected (hrec.append [f])).symm
        cases hset : listSetEq expected (mo.received_rosbags ++ [f]) with
        | false =>
          rw [handle_rosbag_shape_nopublish eo hpath hexp hset,
              handle_rosbag_shape_nopublish ed hpd hed (by rw [hcong, hset])]
          exact strel_setDir h f.dir (DirRel.setSame _ _ hpath2 hexp2 (hrec.append [f]))
        | true =>
          rw [handle_rosbag_shape_publish eo hpath hexp hset,
              handle_rosbag_shape_publish ed hpd hed (by rw [hcong, hset])]
          exact strel_pub_both h f.dir

theorem StRel.rfl (σ : WatchdogState) : StRel σ σ :=
  ⟨fun _ => DirRel.same _, fun _ => Nat.le_refl _⟩

theorem strel_of_setDir (σ1 : WatchdogState) (dir : String)
    (v : Option RosbagRecordingMeta) (hv : DirRel (σ1.rosbags_directories dir) v) :
    StRel σ1 (setDir σ1 dir v) := by
  constructor
  · intro k
    by_cases hk : k = dir
    · subst hk
      rw [setDir_lookup_self]
      exact hv
    · rw [setDir_lookup_other _ _ _ _ hk]
      exact DirRel.same _
  · intro d
    rw [setDir_queue]

theorem SameSet.append_mem {xs : List FsPath} {a : FsPath} (hx : a ∈ xs) :
    SameSet xs (xs ++ [a]) := by
  intro b
  simp only [List.mem_append, List.mem_singleton]
  constructor
  · exact Or.inl
  · rintro (hb | rfl)
    · exact hb
    · exact hx

/-- Processing the same data-file event a second time relates the
once-delivered state (original) to the twice-delivered state (duplicated). -/
theorem strel_dup_rosbag (σ : WatchdogState) (f : FsPath) :
    StRel (handle_rosbag_file σ f)
      (handle_rosbag_file (handle_rosbag_file σ f) f) := by
  cases hd : σ.rosbags_directories f.dir with
  | none =>
    rw [handle_rosbag_shape_new hd]
    have h1 : (setDir σ f.dir
        (some ⟨none, none, [f]⟩)).rosbags_directories f.dir =
        some ⟨none, none, [f]⟩ := setDir_lookup_self ..
    rw [handle_rosbag_shape_nopath h1 rfl]
    exact strel_of_setDir _ _ _ (by rw [h1]; exact DirRel.dead _ _ rfl)
  | some meta =>
    rcases hp : meta.absolute_path with _ | p
    · rw [handle_rosbag_shape_nopath hd hp]
      have h1 := setDir_lookup_self σ f.dir
        (some { meta with received_rosbags := meta.received_rosbags ++ [f] })
      rw [handle_rosbag_shape_nopath h1 hp]
      exact strel_of_setDir _ _ _ (by rw [h1]; exact DirRel.dead _ _ hp)
    · rcases he : meta.expected_rosbags with _ | expected
      · rw [handle_rosbag_shape_noexp hd hp he]
        have h1 := setDir_lookup_self σ f.dir
          (some { meta with received_rosbags := meta.received_rosbags ++ [f] })
        rw [handle_rosbag_shape_noexp h1 hp he]
        refine strel_of_setDir _ _ _ ?_
        rw [h1]
        exact DirRel.setSame _ _ rfl rfl
          (SameSet.append_mem (by simp))
      · cases hset : listSetEq expected (meta.received_rosbags ++ [f]) with
        | true =>
          rw [handle_rosbag_shape_publish hd hp he hset]
          have h1 : ({ setDir σ f.dir none with
              rosbag_recording_queue :=
                σ.rosbag_recording_queue ++ [f.dir] }).rosbags_directories f.dir =
              none := setDir_lookup_self ..
          rw [handle_rosbag_shape_new h1]
          exact strel_of_setDir _ _ _ (by rw [h1]; exact DirRel.dead _ _ rfl)
        | false =>
          rw [handle_rosbag_shape_nopublish hd hp he hset]
          have h1 := setDir_lookup_self σ f.dir
            (some { meta with received_rosbags := meta.received_rosbags ++ [f] })
          have hset2 : listSetEq expected
              ((meta.received_rosbags ++ [f]) ++ [f]) = false := by
            rw [← listSetEq_congr expected (SameSet.append_mem (a := f) (by simp))]
            exact hset
          rw [handle_rosbag_shape_nopublish h1 hp he hset2]
          refine strel_of_setDir _ _ _ ?_
          rw [h1]
          exact DirRel.setSame _ _ rfl rfl (SameSet.append_mem (by simp))

theorem strel_on_closed {σo σd : WatchdogState} (h : StRel σo σd) (e : WatchEvent) :
    (∃ er, on_closed σo e = .error er ∧ on_closed σd e = .error er) ∨
    (∃ σo' σd', on_closed σo e = .ok σo' ∧ on_closed σd e = .ok σd' ∧
      StRel σo' σd') := by
  cases e with
  | metadata dir parse =>
    cases parse with
    | error er => exact Or.inl ⟨er, rfl, rfl⟩
    | ok exp =>
      obtain ⟨σo', σd', ho, hd2, hrel⟩ := strel_metadata h dir exp
      exact Or.inr ⟨σo', σd', ho, hd2, hrel⟩
  | rosbag f => exact Or.inr ⟨_, _, rfl, rfl, strel_rosbag h f⟩

theorem strel_processEvents {σo σd : WatchdogState} (h : StRel σo σd)
    (evs : List WatchEvent) :
    StRel (processEvents σo evs) (processEvents σd evs) := by
  induction evs generalizing σo σd with
  | nil => exact h
  | cons e rest ih =>
    rcases strel_on_closed h e with ⟨er, ho, hd2⟩ | ⟨σo', σd', ho, hd2, hrel⟩
    · simp only [processEvents, ho, hd2]
      exact h
    · simp only [processEvents, ho, hd2]
      exact ih hrel

theorem handle_metadata_ok_isOk (σ : WatchdogState) (dir : String)
    (exp : List FsPath) :
    ∃ σ1, handle_metadata_file σ dir (.ok exp) = .ok σ1 := by
  cases hd : σ.rosbags_directories dir with
  | none => exact ⟨_, handle_metadata_shape_new hd⟩
  | some meta => exact ⟨_, handle_metadata_shape_update hd⟩

/-- Delivering the same manifest event a second time leaves the state
unchanged: expected_rosbags is overwritten with the same parsed value. -/
theorem handle_metadata_idem {σ σ1 : WatchdogState} {dir : String}
    {exp : List FsPath}
    (h : handle_metadata_file σ dir (.ok exp) = .ok σ1) :
    handle_metadata_file σ1 dir (.ok exp) = .ok σ1 := by
  cases hd : σ.rosbags_directories dir with
  | none =>
    rw [handle_metadata_shape_new hd] at h
    injection h with h
    subst h
    rw [handle_metadata_shape_update (setDir_lookup_self ..)]
    exact congrArg Except.ok (setDir_self _ _ (setDir_lookup_self ..))
  | some meta =>
    rw [handle_metadata_shape_update hd] at h
    injection h with h
    subst h
    rw [handle_metadata_shape_update (setDir_lookup_self ..)]
    exact congrArg Except.ok (setDir_self _ _ (setDir_lookup_self ..))

theorem dup_event_count_le (post : List WatchEvent) (e : WatchEvent)
    (d : String) :
    ∀ (pre : List WatchEvent) (σ : WatchdogState),
      ((processEvents σ (pre ++ e :: e :: post)).rosbag_recording_queue.count d) ≤
      ((processEvents σ (pre ++ e :: post)).rosbag_recording_queue.count d) := by
  intro pre
  induction pre with
  | nil =>
    intro σ
    cases e with
    | metadata dir parse =>
      cases parse with
      | error er => simp [processEvents, on_closed, handle_metadata_file]
      | ok exp =>
        obtain ⟨σ1, hmo⟩ := handle_metadata_ok_isOk σ dir exp
        simp only [List.nil_append, processEvents, on_closed, hmo,
          handle_metadata_idem hmo]
        exact Nat.le_refl _
    | rosbag f =>
      have h1 := strel_processEvents (strel_dup_rosbag σ f) post
      simp only [List.nil_append, processEvents, on_closed]
      exact h1.2 d
  | cons e' pre ih =>
    intro σ
    cases ho : on_closed σ e' with
    | error er =>
      simp only [List.cons_append, processEvents, ho]
      exact Nat.le_refl _
    | ok σ' =>
      simp only [List.cons_append, processEvents, ho]
      exact ih σ'

/-- C8 amended: delivering any single event twice instead of once never
increases the number of completion signals published for any directory (in
particular it never causes a second completion signal); however the
duplicate data-file event is not a no-op on the tracked state: it is
appended to received_rosbags, and duplicates are only absorbed when the
expected and received lists are compared as sets
(theorem c8_counterexample_duplicate_mutates_state). -/
theorem c8_duplicated_event_never_adds_completion (pre post : List WatchEvent)
    (e : WatchEvent) (d : String) :
    ((processEvents initialWatchdogState
        (pre ++ e :: e :: post)).rosbag_recording_queue.count d) ≤
    ((processEvents initialWatchdogState
        (pre ++ e :: post)).rosbag_recording_queue.count d) :=
  dup_event_count_le post e d pre initialWatchdogState

/-- C9 counterexample: the claim says a malformed manifest does not raise
out of the event handler (logged as a warning, not fatal).  The code has no
try/except around the parse: the parse error propagates out of on_closed. -/
theorem c9_counterexample_malformed_manifest_raises :
    on_closed initialWatchdogState (.metadata "rec" (.error .malformed)) =
      .error .malformed := rfl

/-- Publication of a directory requires a previously accepted (validly
parsed) manifest: the marker C holds for every directory whose entry has
absolute_path set and for every directory in the completion queue. -/
def PublishNeedsMeta (C : String → Prop) (σ : WatchdogState) : Prop :=
  (∀ k m, σ.rosbags_directories k = some m → m.absolute_path.isSome → C k) ∧
  (∀ k, k ∈ σ.rosbag_recording_queue → C k)

theorem publishNeedsMeta_step {C : String → Prop} {σ σ' : WatchdogState}
    (h : PublishNeedsMeta C σ) {e : WatchEvent} (ho : on_closed σ e = .ok σ')
    (hC : ∀ dir l, e = WatchEvent.metadata dir (.ok l) → C dir) :
    PublishNeedsMeta C σ' := by
  cases e with
  | metadata dir parse =>
    cases parse with
    | error er => exact absurd ho (by simp [on_closed, handle_metadata_file])
    | ok exp =>
      have hCd : C dir := hC dir exp rfl
      have ho' : handle_metadata_file σ dir (.ok exp) = .ok σ' := ho
      cases hd : σ.rosbags_directories dir with
      | none =>
        rw [handle_metadata_shape_new hd] at ho'
        injection ho' with ho'
        subst ho'
        constructor
        · intro k m hm hp
          by_cases hk : k = dir
          · subst hk; exact hCd
          · rw [setDir_lookup_other _ _ _ _ hk] at hm
            exact h.1 k m hm hp
        · intro k hk
          rw [setDir_queue] at hk
          exact h.2 k hk
      | some meta =>
        rw [handle_metadata_shape_update hd] at ho'
        injection ho' with ho'
        subst ho'
        constructor
        · intro k m hm hp
          by_cases hk : k = dir
          · subst hk; exact hCd
          · rw [setDir_lookup_other _ _ _ _ hk] at hm
            exact h.1 k m hm hp
        · intro k hk
          rw [setDir_queue] at hk
          exact h.2 k hk
  | rosbag f =>
    have ho' : handle_rosbag_file σ f = σ' := by
      injection ho
    subst ho'
    cases hd : σ.rosbags_directories f.dir with
    | none =>
      rw [handle_rosbag_shape_new hd]
      constructor
      · intro k m hm hp
        by_cases hk : k = f.dir
        · subst hk
          rw [setDir_lookup_self] at hm
          cases hm
          simp at hp
        · rw [setDir_lookup_other _ _ _ _ hk] at hm
          exact h.1 k m hm hp
      · intro k hk
        rw [setDir_queue] at hk
        exact h.2 k hk
    | some meta =>
      rcases hp2 : meta.absolute_path with _ | p
      · rw [handle_rosbag_shape_nopath hd hp2]
        constructor
        · intro k m hm hp
          by_cases hk : k = f.dir
          · subst hk
            rw [setDir_lookup_self] at hm
            cases hm
            simp [hp2] at hp
          · rw [setDir_lookup_other _ _ _ _ hk] at hm
            exact h.1 k m hm hp
        · intro k hk
          rw [setDir_queue] at hk
          exact h.2 k hk
      · have hCd : C f.dir := h.1 f.dir meta hd (by rw [hp2]; rfl)
        rcases he : meta.expected_rosbags with _ | expected
        · rw [handle_rosbag_shape_noexp hd hp2 he]
          constructor
          · intro k m hm hp
            by_cases hk : k = f.dir
            · subst hk; exact hCd
            · rw [setDir_lookup_other _ _ _ _ hk] at hm
              exact h.1 k m hm hp
          · intro k hk
            rw [setDir_queue] at hk
            exact h.2 k hk
        · cases hset : listSetEq expected (meta.received_rosbags ++ [f]) with
          | false =>
            rw [handle_rosbag_shape_nopublish hd hp2 he hset]
            constructor
            · intro k m hm hp
              by_cases hk : k = f.dir
              · subst hk; exact hCd
              · rw [setDir_lookup_other _ _ _ _ hk] at hm
                exact h.1 k m hm hp
            · intro k hk
              rw [setDir_queue] at hk
              exact h.2 k hk
          | true =>
            rw [handle_rosbag_shape_publish hd hp2 he hset]
            constructor
            · intro k m hm hp
              by_cases hk : k = f.dir
              · subst hk
                have h0 : (setDir σ f.dir none).rosbags_directories f.dir =
                    none := setDir_lookup_self ..
                have hm' : (setDir σ f.dir none).rosbags_directories f.dir =
                    some m := hm
                rw [h0] at hm'
                cases hm'
              · have hm' : (setDir σ f.dir none).rosbags_directories k =
                    some m := hm
                rw [setDir_lookup_other _ _ _ _ hk] at hm'
                exact h.1 k m hm' hp
            · intro k hk
              rcases List.mem_append.mp hk with hk1 | hk2
              · exact h.2 k hk1
              · rw [List.mem_singleton] at hk2
                subst hk2
                exact hCd

theorem publishNeedsMeta_run {C : String → Prop} {σ : WatchdogState}
    (h : PublishNeedsMeta C σ) (evs : List WatchEvent)
    (hC : ∀ dir l, WatchEvent.metadata dir (.ok l) ∈ evs → C dir) :
    PublishNeedsMeta C (processEvents σ evs) := by
  induction evs generalizing σ with
  | nil => exact h
  | cons e rest ih =>
    simp only [processEvents]
    cases ho : on_closed σ e with
    | error er => exact h
    | ok σ' =>
      refine ih (publishNeedsMeta_step h ho ?_) ?_
      · intro dir l hel
        subst hel
        exact hC dir l (List.mem_cons_self _ _)
      · intro dir l hl
        exact hC dir l (List.mem_cons_of_mem _ hl)

/-- C9 amended: a malformed or unparsable manifest makes the event handler
raise (the parse error propagates out of on_closed; it is not caught,
logged as a warning, or used to clear the entry); data-file events for a
directory without an accepted manifest are still recorded in
received_rosbags (and the entry stays unpublishable); and a directory is
never published COMPLETE unless a validly parsed manifest event for it was
processed. -/
theorem c9_malformed_manifest_behaviour :
    (∀ (σ : WatchdogState) (dir : String),
        on_closed σ (.metadata dir (.error .malformed)) = .error .malformed) ∧
    (∀ (σ : WatchdogState) (f : FsPath),
        (∀ m, σ.rosbags_directories f.dir = some m → m.absolute_path = none) →
        ∃ m', (handle_rosbag_file σ f).rosbags_directories f.dir = some m' ∧
          f ∈ m'.received_rosbags ∧ m'.absolute_path = none) ∧
    (∀ (evs : List WatchEvent) (d : String),
        d ∈ (processEvents initialWatchdogState evs).rosbag_recording_queue →
        ∃ l, WatchEvent.metadata d (.ok l) ∈ evs) := by
  refine ⟨fun σ dir => rfl, ?_, ?_⟩
  · intro σ f hdead
    cases hd : σ.rosbags_directories f.dir with
    | none =>
      rw [handle_rosbag_shape_new hd]
      exact ⟨_, setDir_lookup_self .., by simp, rfl⟩
    | some meta =>
      have hp : meta.absolute_path = none := hdead meta hd
      rw [handle_rosbag_shape_nopath hd hp]
      exact ⟨_, setDir_lookup_self .., by simp, hp⟩
  · intro evs d hmem
    have h0 : PublishNeedsMeta
        (fun k => ∃ l, WatchEvent.metadata k (.ok l) ∈ evs)
        initialWatchdogState := by
      constructor
      · intro k m hm
        simp [initialWatchdogState] at hm
      · intro k hk
        simp [initialWatchdogState] at hk
    exact (publishNeedsMeta_run h0 evs (fun dir l hl => ⟨l, hl⟩)).2 d hmem

/-- Witness for c9_malformed_manifest_behaviour at concrete inputs: the
parse error surfaces from the empty state; a data file for a manifest-less
directory is recorded with absolute_path still None; and the one run below
that does publish its directory contains a valid manifest event for it. -/
theorem c9_malformed_manifest_behaviour_witness :
    (on_closed initialWatchdogState (.metadata "w" (.error .malformed)) =
      .error .malformed) ∧
    (∃ m', (handle_rosbag_file initialWatchdogState
        ⟨"w", "a.mcap"⟩).rosbags_directories "w" = some m' ∧
        (⟨"w", "a.mcap"⟩ : FsPath) ∈ m'.received_rosbags ∧
        m'.absolute_path = none) ∧
    (∃ l, WatchEvent.metadata "w" (.ok l) ∈
        [ WatchEvent.metadata "w" (.ok [⟨"w", "a.mcap"⟩])
        , WatchEvent.rosbag ⟨"w", "a.mcap"⟩ ]) := by
  refine ⟨c9_malformed_manifest_behaviour.1 initialWatchdogState "w",
    c9_malformed_manifest_behaviour.2.1 initialWatchdogState ⟨"w", "a.mcap"⟩ ?_,
    c9_malformed_manifest_behaviour.2.2
      [ WatchEvent.metadata "w" (.ok [⟨"w", "a.mcap"⟩])
      , WatchEvent.rosbag ⟨"w", "a.mcap"⟩ ] "w" ?_⟩
  · intro m hm
    exact absurd hm (by simp [initialWatchdogState])
  · show "w" ∈ (processEvents initialWatchdogState
      [ WatchEvent.metadata "w" (.ok [⟨"w", "a.mcap"⟩])
      , WatchEvent.rosbag ⟨"w", "a.mcap"⟩ ]).rosbag_recording_queue
    rw [show (processEvents initialWatchdogState
      [ WatchEvent.metadata "w" (.ok [⟨"w", "a.mcap"⟩])
      , WatchEvent.rosbag ⟨"w", "a.mcap"⟩ ]).rosbag_recording_queue =
        ["w"] from rfl]
    exact List.mem_singleton.mpr rfl

/-! ## Compression pipeline
(upload_rosbags/modules/compression_manager.py)

The CompressionManager spawns worker threads running compression_worker and
one consumer calling get_compressed_bag.  The embedding is a labelled
transition system: each worker owns a program counter marking the atomic
sections of its loop (the qsize gate read, the locked pop of
pending_rosbags_indices, the put onto the queue), the consumer owns a
program counter for get_compressed_bag (the queue read with timeout, the
is_running check), and the external mcap CLI is an outcome table consumed
at the single point compress_rosbag reads its exit status and the output
file.  stop_event is never set in the modelled runs (RosbagUploader only
sets it on KeyboardInterrupt), and multiprocessing.Queue.qsize is modelled
as the exact queue length. -/

/-- The dataclass Rosbag of upload_rosbags/modules/data_types.py. -/
structure Rosbag where
  absolute_path : FsPath
  size_bytes : Nat
deriving DecidableEq, Repr

/-- Outcome of one external mcap-CLI compress invocation: whether
subprocess.run(check=True) raised CalledProcessError, whether the output
file exists afterwards, and its st_size when it does. -/
structure CompressOutcome where
  exitOk : Bool
  outputExists : Bool
  outputSize : Nat
deriving DecidableEq, Repr

/-- CompressionManager.compress_rosbag as a function of the external
outcome: a CalledProcessError is caught and only logged (the TODO branch),
then the result Rosbag is built from the temp output path and the output
file's size, 0 when no output file exists.  Note the returned record is
built and returned whether or not the compression succeeded. -/
def compress_rosbag (temp_directory : String) (rosbag : Rosbag)
    (world : CompressOutcome) : Rosbag :=
  let compressed_rosbag_path : FsPath := ⟨temp_directory, rosbag.absolute_path.name⟩
  let file_size := if world.outputExists then world.outputSize else 0
  { absolute_path := compressed_rosbag_path, size_bytes := file_size }

/-- Program counter of one compression_worker thread.
atGate: about to read qsize at the top of the loop;
passedGate: observed qsize below the maximum, about to take pending_lock;
holding idx: popped idx and is compressing (the put has not happened yet);
exited: returned (thread no longer alive). -/
inductive WorkerPC where
  | atGate
  | passedGate
  | holding (idx : Nat)
  | exited
deriving DecidableEq, Repr

/-- Program counter of the consumer inside get_compressed_bag.
tryGet: about to attempt compressed_rosbags_queue.get(timeout=0.5);
checkRunning: the get raised Empty, about to evaluate is_running. -/
inductive ConsumerPC where
  | tryGet
  | checkRunning
deriving DecidableEq, Repr

/-- Static configuration of one CompressionManager run: the rosbags list,
the temp directory, the queue bound and worker count from Parameters, and
the outcome table of the external compressor per rosbag index. -/
structure PipeCfg where
  rosbags_list : List Rosbag
  temp_directory : String
  compression_queue_max_size : Nat
  compression_parallel_workers : Nat
  worlds : Nat → CompressOutcome

/-- State of the pipeline: the shared pending index set, the bounded queue
(with multiprocessing FIFO order), every worker's program counter, the
consumer's program counter, and the list of values returned by the
consumer's successive get_compressed_bag calls (some r for a delivered
rosbag, none for the terminal sentinel). -/
structure PipeState where
  pending_rosbags_indices : List Nat
  compressed_rosbags_queue : List Rosbag
  workers : List WorkerPC
  consumer : ConsumerPC
  outputs : List (Option Rosbag)
deriving DecidableEq, Repr

/-- The state right after start_compression: all indices pending, empty
queue, every worker at the top of its loop, the consumer about to call
get_compressed_bag. -/
def pipeInit (cfg : PipeCfg) : PipeState :=
  { pending_rosbags_indices := List.range cfg.rosbags_list.length
  , compressed_rosbags_queue := []
  , workers := List.replicate cfg.compression_parallel_workers .atGate
  , consumer := .tryGet
  , outputs := [] }

/-- One interleaving step of the pipeline.  Worker steps follow
compression_worker: the qsize gate is a separate read from the locked pop
(the two are not atomic together), the pop takes an arbitrary element of
the pending set (Python set.pop), and the put is unconditional.  Consumer
steps follow get_compressed_bag: a successful get pops the queue head and
returns it (the caller immediately calls again), an Empty get moves to the
is_running check, which either returns the sentinel (pending empty and no
worker alive, read under pending_lock) or loops back to the get. -/
inductive PipeStep (cfg : PipeCfg) : PipeState → PipeState → Prop where
  | gatePass (σ : PipeState) (i : Nat)
      (hw : σ.workers.get? i = some .atGate)
      (hq : σ.compressed_rosbags_queue.length < cfg.compression_queue_max_size) :
      PipeStep cfg σ { σ with workers := σ.workers.set i .passedGate }
  | workerExit (σ : PipeState) (i : Nat)
      (hw : σ.workers.get? i = some .passedGate)
      (hp : σ.pending_rosbags_indices = []) :
      PipeStep cfg σ { σ with workers := σ.workers.set i .exited }
  | popIndex (σ : PipeState) (i idx : Nat)
      (hw : σ.workers.get? i = some .passedGate)
      (hidx : idx ∈ σ.pending_rosbags_indices) :
      PipeStep cfg σ
        { σ with pending_rosbags_indices := σ.pending_rosbags_indices.erase idx
               , workers := σ.workers.set i (.holding idx) }
  | putItem (σ : PipeState) (i idx : Nat)
      (hw : σ.workers.get? i = some (.holding idx)) :
      PipeStep cfg σ
        { σ with compressed_rosbags_queue := σ.compressed_rosbags_queue ++
            [ compress_rosbag cfg.temp_directory
                (cfg.rosbags_list.getD idx { absolute_path := ⟨"", ""⟩, size_bytes := 0 })
                (cfg.worlds idx) ]
               , workers := σ.workers.set i .atGate }
  | consGetItem (σ : PipeState) (r : Rosbag) (rest : List Rosbag)
      (hc : σ.consumer = .tryGet)
      (hq : σ.compressed_rosbags_queue = r :: rest) :
      PipeStep cfg σ
        { σ with compressed_rosbags_queue := rest
               , outputs := σ.outputs ++ [some r] }
  | consGetEmpty (σ : PipeState)
      (hc : σ.consumer = .tryGet)
      (hq : σ.compressed_rosbags_queue = []) :
      PipeStep cfg σ { σ with consumer := .checkRunning }
  | consFinish (σ : PipeState)
      (hc : σ.consumer = .checkRunning)
      (hp : σ.pending_rosbags_indices = [])
      (hw : ∀ w ∈ σ.workers, w = .exited) :
      PipeStep cfg σ
        { σ with outputs := σ.outputs ++ [none], consumer := .tryGet }
  | consRetry (σ : PipeState)
      (hc : σ.consumer = .checkRunning)
      (hrun : σ.pending_rosbags_indices ≠ [] ∨ ∃ w ∈ σ.workers, w ≠ .exited) :
      PipeStep cfg σ { σ with consumer := .tryGet }

/-- Reachability of a pipeline state from the post-start_compression
state under some interleaving. -/
def PipeReachable (cfg : PipeCfg) (σ : PipeState) : Prop :=
  Relation.ReflTransGen (PipeStep cfg) (pipeInit cfg) σ

/-- Scheduler actions naming the transitions of PipeStep, used to build
concrete reachable interleavings by execution. -/
inductive PAction where
  | gate (i : Nat)
  | quit (i : Nat)
  | pop (i idx : Nat)
  | put (i : Nat)
  | getItem
  | getEmpty
  | finish
  | retry
deriving DecidableEq, Repr

/-- Execute one scheduler action if its guard holds in the given state. -/
def applyAction (cfg : PipeCfg) (σ : PipeState) : PAction → Option PipeState
  | .gate i =>
    match σ.workers.get? i with
    | some .atGate =>
      if σ.compressed_rosbags_queue.length < cfg.compression_queue_max_size then
        some { σ with workers := σ.workers.set i .passedGate }
      else none
    | _ => none
  | .quit i =>
    match σ.workers.get? i with
    | some .passedGate =>
      if σ.pending_rosbags_indices = [] then
        some { σ with workers := σ.workers.set i .exited }
      else none
    | _ => none
  | .pop i idx =>
    match σ.workers.get? i with
    | some .passedGate =>
      if idx ∈ σ.pending_rosbags_indices then
        some { σ with pending_rosbags_indices := σ.pending_rosbags_indices.erase idx
                    , workers := σ.workers.set i (.holding idx) }
      else none
    | _ => none
  | .put i =>
    match σ.workers.get? i with
    | some (.holding idx) =>
      some { σ with compressed_rosbags_queue := σ.compressed_rosbags_queue ++
          [ compress_rosbag cfg.temp_directory
              (cfg.rosbags_list.getD idx { absolute_path := ⟨"", ""⟩, size_bytes := 0 })
              (cfg.worlds idx) ]
                  , workers := σ.workers.set i .atGate }
    | _ => none
  | .getItem =>
    match σ.compressed_rosbags_queue with
    | r :: rest =>
      if σ.consumer = .tryGet then
        some { σ with compressed_rosbags_queue := rest
                    , outputs := σ.outputs ++ [some r] }
      else none
    | [] => none
  | .getEmpty =>
    if σ.consumer = .tryGet ∧ σ.compressed_rosbags_queue = [] then
      some { σ with consumer := .checkRunning }
    else none
  | .finish =>
    if σ.consumer = .checkRunning ∧ σ.pending_rosbags_indices = [] ∧
        ∀ w ∈ σ.workers, w = .exited then
      some { σ with outputs := σ.outputs ++ [none], consumer := .tryGet }
    else none
  | .retry =>
    if σ.consumer = .checkRunning ∧
        (σ.pending_rosbags_indices ≠ [] ∨ ∃ w ∈ σ.workers, w ≠ .exited) then
      some { σ with consumer := .tryGet }
    else none

theorem applyAction_sound {cfg : PipeCfg} {σ σ' : PipeState} {a : PAction}
    (h : applyAction cfg σ a = some σ') : PipeStep cfg σ σ' := by
  cases a with
  | gate i =>
    simp only [applyAction] at h
    split at h
    case h_2 => exact absurd h (by simp)
    case h_1 hw =>
      split at h
      case isTrue hq =>
        injection h with h
        subst h
        exact PipeStep.gatePass σ i hw hq
      case isFalse => exact absurd h (by simp)
  | quit i =>
    simp only [applyAction] at h
    split at h
    case h_2 => exact absurd h (by simp)
    case h_1 hw =>
      split at h
      case isTrue hp =>
        injection h with h
        subst h
        exact PipeStep.workerExit σ i hw hp
      case isFalse => exact absurd h (by simp)
  | pop i idx =>
    simp only [applyAction] at h
    split at h
    case h_2 => exact absurd h (by simp)
    case h_1 hw =>
      split at h
      case isTrue hidx =>
        injection h with h
        subst h
        exact PipeStep.popIndex σ i idx hw hidx
      case isFalse => exact absurd h (by simp)
  | put i =>
    simp only [applyAction] at h
    split at h
    case h_2 => exact absurd h (by simp)
    case h_1 idx hw =>
      injection h with h
      subst h
      exact PipeStep.putItem σ i idx hw
  | getItem =>
    simp only [applyAction] at h
    split at h
    case h_2 => exact absurd h (by simp)
    case h_1 r rest hq =>
      split at h
      case isTrue hc =>
        injection h with h
        subst h
        exact PipeStep.consGetItem σ r rest hc hq
      case isFalse => exact absurd h (by simp)
  | getEmpty =>
    simp only [applyAction] at h
    split at h
    case isTrue hc =>
      injection h with h
      subst h
      exact PipeStep.consGetEmpty σ hc.1 hc.2
    case isFalse => exact absurd h (by simp)
  | finish =>
    simp only [applyAction] at h
    split at h
    case isTrue hc =>
      injection h with h
      subst h
      exact PipeStep.consFinish σ hc.1 hc.2.1 hc.2.2
    case isFalse => exact absurd h (by simp)
  | retry =>
    simp only [applyAction] at h
    split at h
    case isTrue hc =>
      injection h with h
      subst h
      exact PipeStep.consRetry σ hc.1 hc.2
    case isFalse => exact absurd h (by simp)

/-- Run a list of scheduler actions from a state. -/
def runSched (cfg : PipeCfg) (σ : PipeState) : List PAction → Option PipeState
  | [] => some σ
  | a :: rest =>
    match applyAction cfg σ a with
    | some σ' => runSched cfg σ' rest
    | none => none

theorem runSched_trans {cfg : PipeCfg} {σ σ' : PipeState}
    {acts : List PAction} (h : runSched cfg σ acts = some σ') :
    Relation.ReflTransGen (PipeStep cfg) σ σ' := by
  induction acts generalizing σ with
  | nil =>
    simp only [runSched] at h
    injection h with h
    subst h
    exact Relation.ReflTransGen.refl
  | cons a rest ih =>
    simp only [runSched] at h
    cases ha : applyAction cfg σ a with
    | none => rw [ha] at h; exact absurd h (by simp)
    | some σ1 =>
      rw [ha] at h
      exact Relation.ReflTransGen.head (applyAction_sound ha) (ih h)

theorem runSched_reachable (cfg : PipeCfg) (acts : List PAction)
    {σ : PipeState} (h : runSched cfg (pipeInit cfg) acts = some σ) :
    PipeReachable cfg σ :=
  runSched_trans h

/-! ### Queue-occupancy bound (C5) -/

theorem countP_set_swap {α : Type} (p : α → Bool) :
    ∀ (l : List α) (i : Nat) (v w : α), l.get? i = some w →
      (l.set i v).countP p + (if p w then 1 else 0) =
      l.countP p + (if p v then 1 else 0)
  | a :: l, 0, v, w, h => by
      injection h with h
      subst h
      simp only [List.set_cons_zero, List.countP_cons]
      omega
  | a :: l, i + 1, v, w, h => by
      have ih := countP_set_swap p l i v w h
      simp only [List.set_cons_succ, List.countP_cons]
      omega
  | [], _, _, _, h => by simp at h

theorem countP_succ_le_length {α : Type} (p : α → Bool) :
    ∀ (l : List α) (i : Nat) (w : α), l.get? i = some w → p w = false →
      l.countP p + 1 ≤ l.length
  | a :: l, 0, w, h, hp => by
      injection h with h
      subst h
      have := List.countP_le_length (l := l) (p := p)
      simp [List.countP_cons, hp]
      omega
  | a :: l, i + 1, w, h, hp => by
      have ih := countP_succ_le_length p l i w h hp
      simp only [List.countP_cons, List.length_cons]
      have : (if p a then 1 else 0) ≤ 1 := by split <;> omega
      omega
  | [], _, _, h, _ => by simp at h

/-- A worker that is past its qsize gate but has not completed its put:
it may contribute one more item to the queue than the gate accounted for. -/
def workerBusy : WorkerPC → Bool
  | .passedGate => true
  | .holding _ => true
  | .atGate => false
  | .exited => false

/-- Number of workers between their gate read and their put. -/
def inFlight (σ : PipeState) : Nat := σ.workers.countP workerBusy

/-- Inductive invariant of the pipeline: the worker list keeps its length,
and each buffered item plus each busy worker consumes one of the
Q + W - 1 occupancy slots (written additively to stay in Nat). -/
def PipeInv (cfg : PipeCfg) (σ : PipeState) : Prop :=
  σ.workers.length = cfg.compression_parallel_workers ∧
  σ.compressed_rosbags_queue.length + inFlight σ + 1 ≤
    cfg.compression_queue_max_size + cfg.compression_parallel_workers

theorem pipeInv_init (cfg : PipeCfg)
    (hW : 1 ≤ cfg.compression_parallel_workers) : PipeInv cfg (pipeInit cfg) := by
  constructor
  · simp [pipeInit]
  · have h0 : inFlight (pipeInit cfg) = 0 := by
      simp only [inFlight, pipeInit]
      rw [List.countP_eq_zero.mpr]
      intro a ha
      rw [List.eq_of_mem_replicate ha]
      simp [workerBusy]
    show (pipeInit cfg).compressed_rosbags_queue.length +
      inFlight (pipeInit cfg) + 1 ≤ _
    rw [h0]
    have hq0 : (pipeInit cfg).compressed_rosbags_queue.length = 0 := rfl
    rw [hq0]
    omega

theorem pipeInv_step {cfg : PipeCfg} {σ σ' : PipeState} (h : PipeInv cfg σ)
    (hs : PipeStep cfg σ σ') : PipeInv cfg σ' := by
  obtain ⟨hlen, hsum⟩ := h
  simp only [inFlight] at hsum
  cases hs with
  | gatePass i hw hq =>
    have hswap := countP_set_swap workerBusy σ.workers i .passedGate _ hw
    have hle := countP_succ_le_length workerBusy σ.workers i _ hw rfl
    refine ⟨by simpa [List.length_set] using hlen, ?_⟩
    show σ.compressed_rosbags_queue.length +
      (σ.workers.set i .passedGate).countP workerBusy + 1 ≤ _
    simp [workerBusy] at hswap
    omega
  | workerExit i hw hp =>
    have hswap := countP_set_swap workerBusy σ.workers i .exited _ hw
    refine ⟨by simpa [List.length_set] using hlen, ?_⟩
    show σ.compressed_rosbags_queue.length +
      (σ.workers.set i .exited).countP workerBusy + 1 ≤ _
    simp [workerBusy] at hswap
    omega
  | popIndex i idx hw hidx =>
    have hswap := countP_set_swap workerBusy σ.workers i (.holding idx) _ hw
    refine ⟨by simpa [List.length_set] using hlen, ?_⟩
    show σ.compressed_rosbags_queue.length +
      (σ.workers.set i (.holding idx)).countP workerBusy + 1 ≤ _
    simp [workerBusy] at hswap
    omega
  | putItem i idx hw =>
    have hswap := countP_set_swap workerBusy σ.workers i .atGate _ hw
    refine ⟨by simpa [List.length_set] using hlen, ?_⟩
    show (σ.compressed_rosbags_queue ++ [_]).length +
      (σ.workers.set i .atGate).countP workerBusy + 1 ≤ _
    rw [List.length_append]
    simp [workerBusy] at hswap
    simp only [List.length_singleton]
    omega
  | consGetItem r rest hc hq =>
    refine ⟨hlen, ?_⟩
    show rest.length + σ.workers.countP workerBusy + 1 ≤ _
    rw [hq] at hsum
    simp only [List.length_cons] at hsum
    omega
  | consGetEmpty hc hq => exact ⟨hlen, hsum⟩
  | consFinish hc hp hw => exact ⟨hlen, hsum⟩
  | consRetry hc hrun => exact ⟨hlen, hsum⟩

theorem pipeInv_reachable {cfg : PipeCfg} {σ : PipeState}
    (hW : 1 ≤ cfg.compression_parallel_workers) (hr : PipeReachable cfg σ) :
    PipeInv cfg σ := by
  induction hr with
  | refl => exact pipeInv_init cfg hW
  | tail hsteps hstep ih => exact pipeInv_step ih hstep

/-- Concrete pipeline configuration with queue capacity 1 and two workers,
external compressor succeeding. -/
def cfgC5 : PipeCfg :=
  { rosbags_list := [ { absolute_path := ⟨"rec", "rec_0.mcap"⟩, size_bytes := 10 }
                    , { absolute_path := ⟨"rec", "rec_1.mcap"⟩, size_bytes := 20 } ]
  , temp_directory := "tmp"
  , compression_queue_max_size := 1
  , compression_parallel_workers := 2
  , worlds := fun _ => { exitOk := true, outputExists := true, outputSize := 5 } }

/-- C5 counterexample: with queue capacity Q = 1 and W = 2 workers there is
a reachable interleaving in which both workers pass the non-atomic qsize
gate while the queue is below capacity, then both pop and both put, leaving
2 compressed-but-unconsumed items in the queue: the claimed hard ceiling Q
is exceeded. -/
theorem c5_counterexample_queue_exceeds_capacity :
    ∃ σ, PipeReachable cfgC5 σ ∧
      cfgC5.compression_queue_max_size < σ.compressed_rosbags_queue.length := by
  refine ⟨(runSched cfgC5 (pipeInit cfgC5)
      [.gate 0, .gate 1, .pop 0 0, .pop 1 1, .put 0, .put 1]).getD (pipeInit cfgC5),
    runSched_reachable cfgC5
      [.gate 0, .gate 1, .pop 0 0, .pop 1 1, .put 0, .put 1] (by rfl), by decide⟩

/-- C5 amended: in every reachable interleaving the queue holds strictly
fewer than Q + W items: each of the W workers can be past its qsize-gate
read with one undelivered item, so the hard occupancy ceiling is Q + W - 1,
not Q (which is exceeded, theorem c5_counterexample_queue_exceeds_capacity);
correspondingly a worker can still pop while the queue is at capacity,
because the gate read and the pop are not atomic. -/
theorem c5_queue_bounded_by_capacity_plus_workers (cfg : PipeCfg)
    (σ : PipeState) (hW : 1 ≤ cfg.compression_parallel_workers)
    (hr : PipeReachable cfg σ) :
    σ.compressed_rosbags_queue.length <
      cfg.compression_queue_max_size + cfg.compression_parallel_workers := by
  have h := (pipeInv_reachable hW hr).2
  omega

/-- Witness for c5_queue_bounded_by_capacity_plus_workers at the concrete
configuration cfgC5 and its initial state. -/
theorem c5_queue_bound_witness :
    (pipeInit cfgC5).compressed_rosbags_queue.length <
      cfgC5.compression_queue_max_size + cfgC5.compression_parallel_workers :=
  c5_queue_bounded_by_capacity_plus_workers cfgC5 (pipeInit cfgC5)
    (by decide) Relation.ReflTransGen.refl

/-- Concrete pipeline configuration with one rosbag, one worker, queue
capacity 2, external compressor succeeding. -/
def cfgC4 : PipeCfg :=
  { rosbags_list := [ { absolute_path := ⟨"rec", "rec_0.mcap"⟩, size_bytes := 10 } ]
  , temp_directory := "tmp"
  , compression_queue_max_size := 2
  , compression_parallel_workers := 1
  , worlds := fun _ => { exitOk := true, outputExists := true, outputSize := 5 } }

/-- Interleaving in which the consumer observes an empty queue, then the
worker puts its item, loops once more and exits, and only then does the
consumer evaluate is_running: the sentinel is returned with the compressed
item still undelivered, the item is delivered by the next call, and the
call after that returns the sentinel a second time. -/
def c4acts : List PAction :=
  [ .gate 0, .pop 0 0, .getEmpty, .put 0, .gate 0, .quit 0, .finish
  , .getItem, .getEmpty, .finish ]

/-- C4 counterexample: a reachable run of get_compressed_bag calls whose
successive return values are sentinel, item, sentinel — the sentinel is
returned while a successfully compressed file is still undelivered, and it
is returned again after the first time. -/
theorem c4_counterexample_sentinel_before_drain :
    ∃ σ, PipeReachable cfgC4 σ ∧
      σ.outputs = [ none
                  , some { absolute_path := ⟨"tmp", "rec_0.mcap"⟩, size_bytes := 5 }
                  , none ] := by
  refine ⟨(runSched cfgC4 (pipeInit cfgC4) c4acts).getD (pipeInit cfgC4),
    runSched_reachable cfgC4 c4acts (by rfl), by rfl⟩

/-- Sentinel safety invariant: once get_compressed_bag has returned None,
the pending set is empty and every worker thread has exited. -/
def SentinelInv (σ : PipeState) : Prop :=
  none ∈ σ.outputs →
    σ.pending_rosbags_indices = [] ∧ ∀ w ∈ σ.workers, w = .exited

theorem sentinelInv_step {cfg : PipeCfg} {σ σ' : PipeState}
    (h : SentinelInv σ) (hs : PipeStep cfg σ σ') : SentinelInv σ' := by
  cases hs with
  | gatePass i hw hq =>
    intro hn
    obtain ⟨hp, hall⟩ := h hn
    have := hall _ (List.get?_mem hw)
    simp at this
  | workerExit i hw hp2 =>
    intro hn
    obtain ⟨hp, hall⟩ := h hn
    have := hall _ (List.get?_mem hw)
    simp at this
  | popIndex i idx hw hidx =>
    intro hn
    obtain ⟨hp, hall⟩ := h hn
    have := hall _ (List.get?_mem hw)
    simp at this
  | putItem i idx hw =>
    intro hn
    obtain ⟨hp, hall⟩ := h hn
    have := hall _ (List.get?_mem hw)
    simp at this
  | consGetItem r rest hc hq =>
    intro hn
    have hn' : none ∈ σ.outputs := by
      rcases List.mem_append.mp hn with h1 | h2
      · exact h1
      · simp at h2
    exact h hn'
  | consGetEmpty hc hq => exact fun hn => h hn
  | consFinish hc hp hall => exact fun _ => ⟨hp, hall⟩
  | consRetry hc hrun => exact fun hn => h hn

theorem sentinelInv_reachable {cfg : PipeCfg} {σ : PipeState}
    (hr : PipeReachable cfg σ) : SentinelInv σ := by
  induction hr with
  | refl =>
    intro hn
    simp [pipeInit] at hn
  | tail hsteps hstep ih => exact sentinelInv_step ih hstep

/-- C4 amended: whenever get_compressed_bag has returned the sentinel, the
pending work set is empty and every worker has exited, so no further item
is ever enqueued; but the queue need not be drained at the moment of the
first sentinel — a successfully compressed item can still be undelivered
then, later calls can deliver it and then return the sentinel again
(counterexample c4_counterexample_sentinel_before_drain). -/
theorem c4_sentinel_only_when_finished (cfg : PipeCfg) (σ : PipeState)
    (hr : PipeReachable cfg σ) (hs : none ∈ σ.outputs) :
    σ.pending_rosbags_indices = [] ∧ ∀ w ∈ σ.workers, w = .exited :=
  sentinelInv_reachable hr hs

/-- Witness for c4_sentinel_only_when_finished at the end state of the
concrete c4acts interleaving, where the sentinel has been returned. -/
theorem c4_sentinel_only_when_finished_witness :
    ((runSched cfgC4 (pipeInit cfgC4) c4acts).getD
        (pipeInit cfgC4)).pending_rosbags_indices = [] ∧
    ∀ w ∈ ((runSched cfgC4 (pipeInit cfgC4) c4acts).getD
        (pipeInit cfgC4)).workers, w = .exited :=
  c4_sentinel_only_when_finished cfgC4 _
    (runSched_reachable cfgC4 c4acts (by rfl)) (by decide)

/-- Concrete pipeline configuration whose external compressor fails (exit
status non-zero via CalledProcessError) and produces no output file. -/
def cfgC2 : PipeCfg :=
  { rosbags_list := [ { absolute_path := ⟨"rec", "rec_0.mcap"⟩, size_bytes := 10 } ]
  , temp_directory := "tmp"
  , compression_queue_max_size := 2
  , compression_parallel_workers := 1
  , worlds := fun _ => { exitOk := false, outputExists := false, outputSize := 0 } }

/-- C2 counterexample: the claim says an item whose compression fails is
dropped and never pushed onto the compressed-output queue.  In the run
below the compressor exits non-zero and produces no output file, yet the
worker pushes a Rosbag entry for the (nonexistent) temp output path with
size 0 onto the queue, then continues and exits normally. -/
theorem c2_counterexample_failed_item_enqueued :
    ∃ σ, PipeReachable cfgC2 σ ∧
      σ.compressed_rosbags_queue =
        [ { absolute_path := ⟨"tmp", "rec_0.mcap"⟩, size_bytes := 0 } ] ∧
      ∀ w ∈ σ.workers, w = .exited := by
  refine ⟨(runSched cfgC2 (pipeInit cfgC2)
      [.gate 0, .pop 0 0, .put 0, .gate 0, .quit 0]).getD (pipeInit cfgC2),
    runSched_reachable cfgC2 [.gate 0, .pop 0 0, .put 0, .gate 0, .quit 0] (by rfl),
    by rfl, by decide⟩

/-- C2 amended: when the external compressor fails (non-zero exit or no
output file) the failure is only logged: the worker still pushes the
compress_rosbag result for that item onto the queue (with size 0 when no
output file exists), returns to the top of its loop to continue with the
next pending index, and neither the other workers, nor the pending set,
nor the delivered outputs are affected — the pipeline is not aborted. -/
theorem c2_compressor_failure_result_still_pushed (cfg : PipeCfg)
    (σ : PipeState) (i idx : Nat)
    (hw : σ.workers.get? i = some (.holding idx)) :
    ∃ σ', PipeStep cfg σ σ' ∧
      σ'.compressed_rosbags_queue = σ.compressed_rosbags_queue ++
        [ compress_rosbag cfg.temp_directory
            (cfg.rosbags_list.getD idx { absolute_path := ⟨"", ""⟩, size_bytes := 0 })
            (cfg.worlds idx) ] ∧
      σ'.workers.get? i = some .atGate ∧
      (∀ j, j ≠ i → σ'.workers.get? j = σ.workers.get? j) ∧
      σ'.pending_rosbags_indices = σ.pending_rosbags_indices ∧
      σ'.outputs = σ.outputs ∧
      ((cfg.worlds idx).outputExists = false →
        (compress_rosbag cfg.temp_directory
          (cfg.rosbags_list.getD idx { absolute_path := ⟨"", ""⟩, size_bytes := 0 })
          (cfg.worlds idx)).size_bytes = 0) := by
  refine ⟨_, PipeStep.putItem σ i idx hw, rfl, ?_, ?_, rfl, rfl, ?_⟩
  · have hlt : i < σ.workers.length := (List.get?_eq_some.mp hw).fst
    exact List.get?_set_eq_of_lt _ hlt
  · intro j hj
    exact List.get?_set_ne _ _ (Ne.symm hj)
  · intro hex
    simp [compress_rosbag, hex]

/-- Witness for c2_compressor_failure_result_still_pushed: a worker of
cfgC2 holding index 0 pushes the size-0 entry for the failed item. -/
theorem c2_compressor_failure_witness :
    ∃ σ', PipeStep cfgC2
        { pending_rosbags_indices := []
        , compressed_rosbags_queue := []
        , workers := [.holding 0]
        , consumer := .tryGet
        , outputs := [] } σ' ∧
      σ'.compressed_rosbags_queue =
        [ { absolute_path := ⟨"tmp", "rec_0.mcap"⟩, size_bytes := 0 } ] := by
  obtain ⟨σ', hstep, hqueue, -, -, -, -, -⟩ :=
    c2_compressor_failure_result_still_pushed cfgC2
      { pending_rosbags_indices := []
      , compressed_rosbags_queue := []
      , workers := [.holding 0]
      , consumer := .tryGet
      , outputs := [] } 0 0 rfl
  refine ⟨σ', hstep, ?_⟩
  rw [hqueue]
  rfl

/-! ## Transfer via lftp over SSH
(upload_rosbags/upload_rosbags.py and upload_rosbags/modules/ssh_client.py) -/

/-- What the remote lftp command execution produced, as observed through
paramiko's exec_command channel: the decoded stdout and stderr streams. -/
structure SshWorld where
  cmd_stdout : String
  cmd_stderr : String
deriving DecidableEq, Repr

/-- SSHClient.send_command: returns the Python 2-tuple
(output, output_stderr), modelled as the list of the tuple's components.
Note it does not return the command's exit status. -/
def send_command (w : SshWorld) : List String :=
  [w.cmd_stdout, w.cmd_stderr]

/-- Python exceptions that RosbagUploader.upload_file can raise. -/
inductive PyError where
  | valueError
  | runtimeError
deriving DecidableEq, Repr

/-- Python tuple unpacking of a 3-pattern, as in the statement
exit_code, stdout, stderr = ...: raises ValueError unless the value has
exactly three components. -/
def unpack3 (l : List String) : Except PyError (String × String × String) :=
  match l with
  | [a, b, c] => .ok (a, b, c)
  | _ => .error .valueError

/-- RosbagUploader.upload_file as a function of the ssh world: unpack the
send_command result into (exit_code, stdout, stderr); on an stderr
containing the documented substring, return (idempotent skip); on non-zero
exit status raise RuntimeError; otherwise return.  The branches after the
unpacking are dead code, because send_command returns a 2-tuple: the
exit status is modelled as the string it would occupy in the tuple, and
the zero test compares it with the literal used nowhere reachable. -/
def upload_file (w : SshWorld) : Except PyError Unit :=
  match unpack3 (send_command w) with
  | .error e => .error e
  | .ok (exit_code, _stdout, stderr_s) =>
    if pyIn "file already exists" stderr_s then .ok ()
    else if exit_code ≠ "0" then .error .runtimeError
    else .ok ()

/-- C3: the claim says a transfer whose stderr reports that the destination
already exists completes as a success without raising.  Every call of
upload_file raises ValueError before the stderr check is reached:
send_command returns the 2-tuple (stdout, stderr) while upload_file unpacks
three values (exit_code, stdout, stderr).  This theorem evaluates the
embedded code at the failing input — an lftp run whose stderr contains the
documented substring — and shows the call raises instead of succeeding. -/
theorem c3_already_exists_upload_raises_valueerror :
    upload_file { cmd_stdout := ""
                , cmd_stderr := "pget: file already exists" } =
      .error .valueError := rfl

/-! ## Remote compression and rsync transfer with retries
(upload_vehicle_data.py) -/

/-- Exit status of one external command invocation (ssh, rsync, rm):
err stands for subprocess.CalledProcessError from check=True. -/
inductive CmdResult where
  | ok
  | err
deriving DecidableEq, Repr

/-- External world of one compress_and_transfer_rosbag call: the outcome of
the disk-space check, of the remote mcap compress command, of the n-th
rsync invocation (0-based), and of the final remote rm of the compressed
temp file. -/
structure TransferWorld where
  disk_space_ok : Bool
  compress_ok : Bool
  rsync : Nat → CmdResult
  rm_ok : Bool

/-- Observable outcome of compress_and_transfer_rosbag: the returned
success flag, the value of the attempts counter when the retry loop exits
(incremented once per failed rsync, not on the successful one), the number
of rsync invocations actually made, and whether the remote compressed temp
file was removed by the function. -/
structure TransferReport where
  returned : Bool
  attempts : Nat
  rsync_invocations : Nat
  compressed_deleted : Bool
deriving DecidableEq, Repr

/-- The while attempts < max_upload_attempts retry loop.  remaining is
max_upload_attempts - attempts, so the loop guard attempts <
max_upload_attempts is exactly remaining > 0.  Returns the success flag
and the final attempts counter. -/
def upload_loop (rsync : Nat → CmdResult) : Nat → Nat → Bool × Nat
  | 0, attempts => (false, attempts)
  | remaining + 1, attempts =>
    match rsync attempts with
    | .ok => (true, attempts)
    | .err => upload_loop rsync remaining (attempts + 1)

/-- compress_and_transfer_rosbag of upload_vehicle_data.py as a function of
the external world: insufficient disk space or a failed remote compression
return False before any rsync; then the rsync retry loop runs; on exhausted
attempts the function returns False without removing the compressed file;
on success it removes the remote compressed file, returning False if that
rm fails, True otherwise. -/
def compress_and_transfer_rosbag (w : TransferWorld)
    (max_upload_attempts : Nat) : TransferReport :=
  if ¬ w.disk_space_ok then
    { returned := false, attempts := 0, rsync_invocations := 0
    , compressed_deleted := false }
  else if ¬ w.compress_ok then
    { returned := false, attempts := 0, rsync_invocations := 0
    , compressed_deleted := false }
  else
    match upload_loop w.rsync max_upload_attempts 0 with
    | (false, attempts) =>
      { returned := false, attempts := attempts
      , rsync_invocations := attempts, compressed_deleted := false }
    | (true, attempts) =>
      if w.rm_ok then
        { returned := true, attempts := attempts
        , rsync_invocations := attempts + 1, compressed_deleted := true }
      else
        { returned := false, attempts := attempts
        , rsync_invocations := attempts + 1, compressed_deleted := false }

theorem upload_loop_all_fail (rsync : Nat → CmdResult) :
    ∀ (remaining base : Nat),
      (∀ i, base ≤ i → i < base + remaining → rsync i = .err) →
      upload_loop rsync remaining base = (false, base + remaining)
  | 0, base, _ => by simp [upload_loop]
  | remaining + 1, base, h => by
    have h0 : rsync base = .err := h base (Nat.le_refl _) (by omega)
    have ih := upload_loop_all_fail rsync remaining (base + 1)
      (fun i h1 h2 => h i (by omega) (by omega))
    simp only [upload_loop, h0, ih]
    congr 1
    omega

theorem upload_loop_first_success (rsync : Nat → CmdResult) :
    ∀ (remaining base k : Nat),
      (∀ i, base ≤ i → i < base + k → rsync i = .err) →
      rsync (base + k) = .ok → k < remaining →
      upload_loop rsync remaining base = (true, base + k)
  | 0, base, k, _, _, hk => by omega
  | remaining + 1, base, k, hfail, hok, hk => by
    cases k with
    | zero =>
      have h0 : rsync base = .ok := by simpa using hok
      simp [upload_loop, h0]
    | succ k' =>
      have h0 : rsync base = .err := hfail base (Nat.le_refl _) (by omega)
      have ih := upload_loop_first_success rsync remaining (base + 1) k'
        (fun i h1 h2 => hfail i (by omega) (by omega))
        (by rw [show base + 1 + k' = base + (k' + 1) from by omega]; exact hok)
        (by omega)
      simp only [upload_loop, h0, ih]
      congr 1
      omega

theorem cat_exhausted_report (w : TransferWorld) (max_upload_attempts : Nat)
    (hdisk : w.disk_space_ok = true) (hcomp : w.compress_ok = true)
    (hfail : ∀ i, i < max_upload_attempts → w.rsync i = .err) :
    compress_and_transfer_rosbag w max_upload_attempts =
      { returned := false, attempts := max_upload_attempts
      , rsync_invocations := max_upload_attempts
      , compressed_deleted := false } := by
  have hloop := upload_loop_all_fail w.rsync max_upload_attempts 0
    (fun i _ h2 => hfail i (by omega))
  rw [show (0 : Nat) + max_upload_attempts = max_upload_attempts from by omega]
    at hloop
  simp only [compress_and_transfer_rosbag, hdisk, hcomp]
  rw [if_neg (by simp), if_neg (by simp), hloop]

theorem cat_success_report (w : TransferWorld) (max_upload_attempts k : Nat)
    (hdisk : w.disk_space_ok = true) (hcomp : w.compress_ok = true)
    (hrm : w.rm_ok = true)
    (hfail : ∀ i, i < k → w.rsync i = .err) (hok : w.rsync k = .ok)
    (hk : k < max_upload_attempts) :
    compress_and_transfer_rosbag w max_upload_attempts =
      { returned := true, attempts := k, rsync_invocations := k + 1
      , compressed_deleted := true } := by
  have hloop := upload_loop_first_success w.rsync max_upload_attempts 0 k
    (fun i _ h2 => hfail i (by omega)) (by simpa using hok) hk
  rw [show (0 : Nat) + k = k from by omega] at hloop
  simp only [compress_and_transfer_rosbag, hdisk, hcomp]
  rw [if_neg (by simp), if_neg (by simp), hloop]
  simp [hrm]

/-- C6: a transfer whose rsync fails on the first k attempts and succeeds
on attempt k + 1 (with k below the bound) returns success with exactly k
recorded retries in the attempts counter, makes k + 1 <= maxAttempts rsync
invocations, and the remote compressed temp file is removed (assuming the
removal command itself succeeds, as it is a separate external rm); a
transfer all of whose maxAttempts rsync invocations fail returns failure,
makes exactly maxAttempts invocations, and the compressed file has not
been removed when the function returns. -/
theorem c6_retry_bound :
    (∀ (w : TransferWorld) (max_upload_attempts k : Nat),
        w.disk_space_ok = true → w.compress_ok = true → w.rm_ok = true →
        (∀ i, i < k → w.rsync i = .err) → w.rsync k = .ok →
        k < max_upload_attempts →
        compress_and_transfer_rosbag w max_upload_attempts =
          { returned := true, attempts := k, rsync_invocations := k + 1
          , compressed_deleted := true } ∧
        k + 1 ≤ max_upload_attempts) ∧
    (∀ (w : TransferWorld) (max_upload_attempts : Nat),
        w.disk_space_ok = true → w.compress_ok = true →
        (∀ i, i < max_upload_attempts → w.rsync i = .err) →
        compress_and_transfer_rosbag w max_upload_attempts =
          { returned := false, attempts := max_upload_attempts
          , rsync_invocations := max_upload_attempts
          , compressed_deleted := false }) := by
  constructor
  · intro w max_upload_attempts k hdisk hcomp hrm hfail hok hk
    exact ⟨cat_success_report w max_upload_attempts k hdisk hcomp hrm
      hfail hok hk, by omega⟩
  · intro w max_upload_attempts hdisk hcomp hfail
    exact cat_exhausted_report w max_upload_attempts hdisk hcomp hfail

/-- Witness for c6_retry_bound: two failures then success with bound 5
gives success with 2 recorded retries, 3 invocations and the file deleted;
all-failing rsync with bound 3 gives failure after exactly 3 invocations
with the file still present. -/
theorem c6_retry_bound_witness :
    (compress_and_transfer_rosbag
        { disk_space_ok := true, compress_ok := true
        , rsync := fun i => if i < 2 then .err else .ok, rm_ok := true } 5 =
      { returned := true, attempts := 2, rsync_invocations := 3
      , compressed_deleted := true } ∧ 2 + 1 ≤ 5) ∧
    compress_and_transfer_rosbag
        { disk_space_ok := true, compress_ok := true
        , rsync := fun _ => .err, rm_ok := true } 3 =
      { returned := false, attempts := 3, rsync_invocations := 3
      , compressed_deleted := false } := by
  constructor
  · exact c6_retry_bound.1 _ 5 2 rfl rfl rfl
      (fun i hi => by simp [hi]) (by simp) (by omega)
  · exact c6_retry_bound.2 _ 3 rfl rfl (fun i _ => rfl)

/-- Whether a compressed temp file was created for an item: compression
runs only after the disk-space check passes, and a failed remote compress
returns before rsync. -/
def compressed_created (w : TransferWorld) : Bool :=
  w.disk_space_ok && w.compress_ok

/-- Observable outcome of processing one directory's rosbag list in
process_directory: the per-item results collected from the futures, the
values appended to successfully_uploaded_files (the boolean future results
themselves, not the rosbag paths), the file_path arguments the clean-up
loop passes to delete_remote_file, which compressed temp artifacts survive
the end of the directory run, and whether a CalledProcessError propagated
out of process_directory. -/
structure DirectoryOutcome where
  results : List Bool
  successfully_uploaded_files : List Bool
  rm_targets : List String
  compressed_retained : List Bool
  raised : Bool
deriving DecidableEq, Repr

/-- The clean-up loop, for rosbag in successfully_uploaded_files:
delete_remote_file(..., rosbag).  Every element of that list is the Python
boolean True (the appended future result), so the f-string command built
by delete_remote_file renders it as the file path str(True), issuing the
command rm True — never the path of a rosbag.  run_ssh_command re-raises
CalledProcessError, so the loop stops at the first failing rm and the
exception propagates.  Arguments: outcome table of the n-th rm True
invocation, number of remaining list elements, invocation index.  Returns
the file_path arguments of the invocations actually made and whether the
loop raised. -/
def cleanup_rm_loop (rm_true : Nat → CmdResult) : Nat → Nat → List String × Bool
  | 0, _ => ([], false)
  | n + 1, i =>
    match rm_true i with
    | .ok =>
      ("True" :: (cleanup_rm_loop rm_true n (i + 1)).1,
        (cleanup_rm_loop rm_true n (i + 1)).2)
    | .err => (["True"], true)

/-- The per-item portion of process_directory of upload_vehicle_data.py:
every item is submitted to compress_and_transfer_rosbag and every future's
result is collected; the truthy results — the booleans themselves, not the
rosbag paths — are appended to successfully_uploaded_files; when clean_up
is configured, delete_remote_file is called once per appended element with
that boolean as the file path (the clean-up loop above), and a failing
rm True raises out of process_directory, whose try block has no except
clause; the finally block always runs delete_remote_temp_directory (an
rm -rf of the temp directory, modelled as succeeding), which removes every
compressed artifact still inside, before any exception continues to
propagate. -/
def process_directory_items (worlds : List TransferWorld)
    (max_upload_attempts : Nat) (clean_up : Bool)
    (rm_true : Nat → CmdResult) : DirectoryOutcome :=
  let reports := worlds.map
    (fun w => compress_and_transfer_rosbag w max_upload_attempts)
  let results := reports.map (fun r => r.returned)
  -- if result: successfully_uploaded_files.append(result) appends the
  -- boolean returned by the future, not the rosbag path
  let successfully_uploaded_files := results.filter (fun r => r)
  let cleanup :=
    if clean_up then
      cleanup_rm_loop rm_true successfully_uploaded_files.length 0
    else ([], false)
  let still_in_temp := (worlds.zip reports).map
    (fun p => compressed_created p.1 && !p.2.compressed_deleted)
  -- delete_remote_temp_directory in the finally block removes the temp
  -- directory and therefore every artifact that was still in it
  let compressed_retained := still_in_temp.map (fun _ => false)
  { results := results
  , successfully_uploaded_files := successfully_uploaded_files
  , rm_targets := cleanup.1
  , compressed_retained := compressed_retained
  , raised := cleanup.2 }

/-- World of an item whose upload exhausts every attempt. -/
def wFailAll : TransferWorld :=
  { disk_space_ok := true, compress_ok := true
  , rsync := fun _ => .err, rm_ok := true }

/-- World of an item whose first upload attempt succeeds. -/
def wOkFirst : TransferWorld :=
  { disk_space_ok := true, compress_ok := true
  , rsync := fun _ => .ok, rm_ok := true }

/-- C7 counterexample: the claim says a single exhausted item yields a
failure result for that item only, its local artifact is retained for a
later run, and the per-item failure does not abort the whole run.  With
two items — the first exhausting its upload attempts, the second
succeeding — and clean_up enabled, the futures loop does continue past the
failure (results are [false, true]), but no compressed artifact survives
the end of the directory run (the finally block's
delete_remote_temp_directory removes the temp directory), the one clean-up
command issued names the boolean True rather than any rosbag, and its
failure raises CalledProcessError out of process_directory, aborting the
run. -/
theorem c7_counterexample_failed_artifact_not_retained :
    (process_directory_items [wFailAll, wOkFirst] 2 true
      (fun _ => .err)).results = [false, true] ∧
    (process_directory_items [wFailAll, wOkFirst] 2 true
      (fun _ => .err)).compressed_retained = [false, false] ∧
    (process_directory_items [wFailAll, wOkFirst] 2 true
      (fun _ => .err)).rm_targets = ["True"] ∧
    (process_directory_items [wFailAll, wOkFirst] 2 true
      (fun _ => .err)).raised = true := ⟨rfl, rfl, rfl, rfl⟩

theorem cleanup_rm_loop_targets (rm_true : Nat → CmdResult) :
    ∀ (n i : Nat), ∀ t ∈ (cleanup_rm_loop rm_true n i).1, t = "True"
  | 0, i => by simp [cleanup_rm_loop]
  | n + 1, i => by
    have ih := cleanup_rm_loop_targets rm_true n (i + 1)
    simp only [cleanup_rm_loop]
    cases rm_true i with
    | ok =>
      intro t ht
      rcases List.mem_cons.mp ht with h1 | h2
      · exact h1
      · exact ih t h2
    | err =>
      intro t ht
      rw [List.mem_singleton] at ht
      exact ht

/-- C7 amended: an item whose upload exhausts max_upload_attempts yields a
failure result for that item only: every submitted item still gets a
collected result and each item's result depends only on its own world (the
futures loop is not cut short); the failed item's original raw rosbag is
retained — indeed clean-up never deletes any rosbag, because
process_directory appends the boolean future result instead of the path,
so every file-path argument of the clean-up rm commands is str(True); the
failed item contributes nothing to the clean-up list (a False result is
falsy and not appended), so with clean_up disabled, or with no successful
item, nothing raises and the per-item failure alone never aborts the run;
but the failed item's compressed temp artifact is NOT retained for a later
run (the finally block removes the temp directory), and when clean_up is
enabled and some item succeeded, the failing rm True raises out of
process_directory after the per-item loop
(counterexample c7_counterexample_failed_artifact_not_retained). -/
theorem c7_per_item_failure_isolated (worlds : List TransferWorld)
    (max_upload_attempts : Nat) (clean_up : Bool)
    (rm_true : Nat → CmdResult) (j : Nat)
    (w : TransferWorld) (hj : worlds.get? j = some w)
    (hdisk : w.disk_space_ok = true) (hcomp : w.compress_ok = true)
    (hfail : ∀ i, i < max_upload_attempts → w.rsync i = .err) :
    (process_directory_items worlds max_upload_attempts clean_up
      rm_true).results.length = worlds.length ∧
    (process_directory_items worlds max_upload_attempts clean_up
      rm_true).results.get? j = some false ∧
    (∀ i, (process_directory_items worlds max_upload_attempts clean_up
        rm_true).results.get? i =
      (worlds.get? i).map
        (fun wi => (compress_and_transfer_rosbag wi
          max_upload_attempts).returned)) ∧
    (∀ t ∈ (process_directory_items worlds max_upload_attempts clean_up
        rm_true).rm_targets, t = "True") ∧
    (process_directory_items worlds max_upload_attempts clean_up
      rm_true).compressed_retained.get? j = some false ∧
    (clean_up = false →
      (process_directory_items worlds max_upload_attempts clean_up
        rm_true).rm_targets = [] ∧
      (process_directory_items worlds max_upload_attempts clean_up
        rm_true).raised = false) ∧
    ((process_directory_items worlds max_upload_attempts clean_up
        rm_true).results.filter (fun r => r) = [] →
      (process_directory_items worlds max_upload_attempts clean_up
        rm_true).rm_targets = [] ∧
      (process_directory_items worlds max_upload_attempts clean_up
        rm_true).raised = false) := by
  have hres : ∀ i,
      (process_directory_items worlds max_upload_attempts clean_up
        rm_true).results.get? i =
      (worlds.get? i).map
        (fun wi => (compress_and_transfer_rosbag wi
          max_upload_attempts).returned) := by
    intro i
    simp [process_directory_items, List.get?_map]
    cases worlds[i]? <;> rfl
  have hrep := cat_exhausted_report w max_upload_attempts hdisk hcomp hfail
  have hresj :
      (process_directory_items worlds max_upload_attempts clean_up
        rm_true).results.get? j = some false := by
    rw [hres j, hj]
    simp [hrep]
  refine ⟨by simp [process_directory_items], hresj, hres, ?_, ?_, ?_, ?_⟩
  · show ∀ t ∈ (if clean_up then
        cleanup_rm_loop rm_true _ 0 else ([], false)).1, t = "True"
    split
    · exact cleanup_rm_loop_targets rm_true _ 0
    · simp
  · have hjlt : j < worlds.length := by
      rcases List.get?_eq_some.mp hj with ⟨hlt, _⟩
      exact hlt
    have hzlen : (worlds.zip (worlds.map
        (fun w => compress_and_transfer_rosbag w max_upload_attempts))).length =
        worlds.length := by
      simp
    show (((worlds.zip (worlds.map
        (fun w => compress_and_transfer_rosbag w max_upload_attempts))).map
        (fun p => compressed_created p.1 && !p.2.compressed_deleted)).map
        (fun _ => false)).get? j = some false
    rw [List.get?_map, List.get?_map]
    rw [List.get?_eq_get (by rw [hzlen]; exact hjlt)]
    rfl
  · intro hcu
    subst hcu
    exact ⟨rfl, rfl⟩
  · intro hempty
    have hlen0 : ((process_directory_items worlds max_upload_attempts
        clean_up rm_true).results.filter (fun r => r)).length = 0 := by
      rw [hempty]
      rfl
    show ((if clean_up then
        cleanup_rm_loop rm_true
          (((worlds.map (fun w => compress_and_transfer_rosbag w
            max_upload_attempts)).map (fun r => r.returned)).filter
            (fun r => r)).length 0
      else ([], false)).1 = [] ∧
      (if clean_up then
        cleanup_rm_loop rm_true
          (((worlds.map (fun w => compress_and_transfer_rosbag w
            max_upload_attempts)).map (fun r => r.returned)).filter
            (fun r => r)).length 0
      else ([], false)).2 = false)
    rw [show (((worlds.map (fun w => compress_and_transfer_rosbag w
        max_upload_attempts)).map (fun r => r.returned)).filter
        (fun r => r)).length =
      ((process_directory_items worlds max_upload_attempts clean_up
        rm_true).results.filter (fun r => r)).length from rfl, hlen0]
    split
    · exact ⟨rfl, rfl⟩
    · exact ⟨rfl, rfl⟩

/-- Witness for c7_per_item_failure_isolated: a directory with an
exhausting first item and a succeeding second item under enabled clean-up
whose rm True fails. -/
theorem c7_per_item_failure_isolated_witness :
    (process_directory_items [wFailAll, wOkFirst] 2 true
      (fun _ => .err)).results.get? 0 = some false ∧
    (∀ t ∈ (process_directory_items [wFailAll, wOkFirst] 2 true
        (fun _ => .err)).rm_targets, t = "True") ∧
    (process_directory_items [wFailAll, wOkFirst] 2 true
      (fun _ => .err)).compressed_retained.get? 0 = some false := by
  obtain ⟨-, hres, -, hrm, hcomp, -, -⟩ :=
    c7_per_item_failure_isolated [wFailAll, wOkFirst] 2 true
      (fun _ => .err) 0 wFailAll rfl rfl rfl (fun i _ => rfl)
  exact ⟨hres, hrm, hcomp⟩

/-! ## Rosbag enumeration
(RosbagUploader.get_rosbags_from_directory in upload_rosbags/upload_rosbags.py) -/

/-- One entry produced by Path.rglob for the scanned directory: its path
components, whether is_file() holds, and its st_size. -/
structure DirEntry where
  parts : List String
  is_file : Bool
  size_bytes : Nat
deriving DecidableEq, Repr

/-- Element of the returned list: Rosbag(absolute_path=file.resolve(),
size_bytes=file.stat().st_size); resolve() is modelled as the identity on
the already-absolute rglob paths, keeping the parts. -/
structure RosbagEntry where
  path_parts : List String
  size_bytes : Nat
deriving DecidableEq, Repr

/-- Final path component (pathlib Path.name; empty for an empty path). -/
def entryName (parts : List String) : String := (parts.getLast?).getD ""

/-- pathlib Path.stem: the name without its suffix, where the suffix is
name[i:] for the last dot index i only when 0 < i < len(name) - 1. -/
def pyStem (s : String) : String :=
  let cs := s.data
  match (cs.enum.filterMap
      (fun p => if p.2 = '.' then some p.1 else none)).getLast? with
  | some i => if 0 < i ∧ i + 1 < cs.length then ⟨cs.take i⟩ else s
  | none => s

/-- stem.rsplit('_', 1)[-1]: everything after the last underscore, the
whole string when it has no underscore. -/
def afterLastUnderscore (s : String) : String :=
  ⟨(s.data.reverse.takeWhile (fun c => c ≠ '_')).reverse⟩

/-- Python str.isdigit for ASCII content: nonempty and all digits. -/
def isDigitStr (s : String) : Bool :=
  !s.data.isEmpty && s.data.all (fun c => c.isDigit)

/-- Python int(...) on a digit string. -/
def digitsToNat (l : List Char) : Nat :=
  l.foldl (fun acc c => acc * 10 + (c.toNat - 48)) 0

/-- Sort key of the helper order_based_on_sufix (sic) applied to a file
name: int(suffix_str) when the suffix after the last underscore of the stem
is a digit string, -1 otherwise. -/
def keyOfName (name : String) : Int :=
  let stem := pyStem name
  let suffix_str := afterLastUnderscore stem
  if isDigitStr suffix_str then ((digitsToNat suffix_str.data : Nat) : Int)
  else -1

/-- order_based_on_sufix of get_rosbags_from_directory. -/
def order_based_on_sufix (path : DirEntry) : Int :=
  keyOfName (entryName path.parts)

/-- Sort key of the returned Rosbag entries (their path parts are the
DirEntry parts unchanged). -/
def entryKey (r : RosbagEntry) : Int := keyOfName (entryName r.path_parts)

/-- Comparison used by Python sorted(key=order_based_on_sufix). -/
def keyLe (a b : DirEntry) : Prop :=
  order_based_on_sufix a ≤ order_based_on_sufix b

instance : DecidableRel keyLe := fun a b =>
  Int.decLe (order_based_on_sufix a) (order_based_on_sufix b)

instance : IsTotal DirEntry keyLe :=
  ⟨fun a b => Int.le_total (order_based_on_sufix a) (order_based_on_sufix b)⟩

instance : IsTrans DirEntry keyLe :=
  ⟨fun _ _ _ => le_trans⟩

/-- RosbagUploader.get_rosbags_from_directory: keep the rglob entries with
is_file(), sort them stably by order_based_on_sufix (Python sorted;
insertion sort is the stable sort, so it computes the same list), drop
every entry having the temp directory name compressed_rosbags among its
parts, and build the Rosbag records. -/
def get_rosbags_from_directory (listing : List DirEntry) : List RosbagEntry :=
  let mcap_files := List.insertionSort keyLe
    (listing.filter (fun file => file.is_file))
  let filtered_mcap_files := mcap_files.filter
    (fun mcap => !(mcap.parts.contains "compressed_rosbags"))
  filtered_mcap_files.map
    (fun file => { path_parts := file.parts, size_bytes := file.size_bytes })

theorem entryKey_ge_neg_one (r : RosbagEntry) : -1 ≤ entryKey r := by
  show -1 ≤ keyOfName (entryName r.path_parts)
  unfold keyOfName
  simp only []
  split
  · omega
  · omega

/-- C10: the returned list is ordered non-decreasingly by the integer
suffix after the last underscore of the file stem (files whose suffix is
not a digit string get key -1 and therefore all precede the numbered
files), every file with compressed_rosbags among its path components is
excluded, and the returned paths are exactly (up to the sort) the is_file
rglob entries without that component. -/
theorem c10_rosbag_enumeration (listing : List DirEntry) :
    ((get_rosbags_from_directory listing).Pairwise
      (fun a b => entryKey a ≤ entryKey b)) ∧
    (∀ r ∈ get_rosbags_from_directory listing,
      "compressed_rosbags" ∉ r.path_parts) ∧
    (∀ r ∈ get_rosbags_from_directory listing,
      isDigitStr (afterLastUnderscore (pyStem (entryName r.path_parts))) = false →
      entryKey r = -1) ∧
    ((get_rosbags_from_directory listing).Pairwise
      (fun a b => entryKey b = -1 → entryKey a = -1)) ∧
    List.Perm
      ((get_rosbags_from_directory listing).map (fun r => r.path_parts))
      (((listing.filter (fun file => file.is_file)).filter
          (fun file => !(file.parts.contains "compressed_rosbags"))).map
        (fun file => file.parts)) := by
  have hsorted : (get_rosbags_from_directory listing).Pairwise
      (fun a b => entryKey a ≤ entryKey b) := by
    unfold get_rosbags_from_directory
    rw [List.pairwise_map]
    refine List.Pairwise.filter _ ?_
    have hs := List.sorted_insertionSort keyLe
      (listing.filter (fun file => file.is_file))
    exact hs.imp (fun h => h)
  refine ⟨hsorted, ?_, ?_, ?_, ?_⟩
  · intro r hr
    unfold get_rosbags_from_directory at hr
    rw [List.mem_map] at hr
    obtain ⟨file, hfile, hre⟩ := hr
    rw [List.mem_filter] at hfile
    have hnc := hfile.2
    subst hre
    intro hmem
    rw [Bool.not_eq_true', ← Bool.not_eq_true] at hnc
    exact hnc (List.elem_iff.mpr hmem)
  · intro r _ hdig
    show keyOfName (entryName r.path_parts) = -1
    unfold keyOfName
    simp only []
    rw [hdig]
    simp
  · have himp : ∀ (a b : RosbagEntry), entryKey a ≤ entryKey b →
        (entryKey b = -1 → entryKey a = -1) := by
      intro a b hle hb
      have h1 := entryKey_ge_neg_one a
      omega
    exact hsorted.imp (fun h => himp _ _ h)
  · unfold get_rosbags_from_directory
    simp only [List.map_map]
    have h1 := List.Perm.filter
      (fun mcap => !(mcap.parts.contains "compressed_rosbags"))
      (List.perm_insertionSort keyLe
        (listing.filter (fun file => file.is_file)))
    exact List.Perm.map _ h1

/-- Concrete rglob listing used as witness input: a numbered bag, a bag
inside the compressed_rosbags temp directory, and a bag without numeric
suffix. -/
def listingC10 : List DirEntry :=
  [ { parts := ["rec", "rosbag_2.mcap"], is_file := true, size_bytes := 30 }
  , { parts := ["rec", "compressed_rosbags", "rosbag_1.mcap"]
    , is_file := true, size_bytes := 10 }
  , { parts := ["rec", "weird.mcap"], is_file := true, size_bytes := 7 }
  , { parts := ["rec", "rosbag_1.mcap"], is_file := true, size_bytes := 20 } ]

/-- Witness for c10_rosbag_enumeration: the entry without numeric suffix is
in the result with key -1, and the result excludes the temp-directory file. -/
theorem c10_rosbag_enumeration_witness :
    ("compressed_rosbags" ∉
      ({ path_parts := ["rec", "weird.mcap"], size_bytes := 7 } :
        RosbagEntry).path_parts) ∧
    entryKey ({ path_parts := ["rec", "weird.mcap"], size_bytes := 7 } :
      RosbagEntry) = -1 := by
  have h := c10_rosbag_enumeration listingC10
  refine ⟨h.2.1 _ ?_, h.2.2.1 _ ?_ ?_⟩
  · decide
  · decide
  · decide
